import Mathlib

/-!
Verification development for the JSON-RPC 2.0 toolkit (`rpc-express-toolkit`):
a shallow embedding of its serialization codec (`serializeBigIntsAndDates` /
`deserializeBigIntsAndDates`), middleware manager (`MiddlewareManager.execute`),
single-request dispatcher (`RpcEndpoint.#processSingleRequest` / `reply`) and
batch handler (`BatchHandler`), together with proofs about the spec's claims.

JavaScript strings are modelled as `List Char`; JavaScript runtime values that
the codec and dispatcher inspect are modelled by the inductive `JsValue`
(strings, numbers, booleans, null, undefined, BigInt, Date, arrays and plain
objects).  JS numbers are never inspected by any of the embedded code (they
pass through every function untouched), so they are carried as `Int`.
A JS `Date` is observed by the embedded code only through `toISOString()` and
`new Date(isoString)` plus a validity check, so it is represented by its UTC
calendar components (`DateParts`), which the canonical ISO-8601 string
determines bijectively.
-/

/-- One decimal digit rendered as a character (used only with arguments `< 10`;
the catch-all branch is never reached on those). -/
def dc (d : Nat) : Char :=
  match d with
  | 0 => '0' | 1 => '1' | 2 => '2' | 3 => '3' | 4 => '4'
  | 5 => '5' | 6 => '6' | 7 => '7' | 8 => '8' | _ => '9'

/-- Numeric value of a digit character. -/
def dval (c : Char) : Nat := c.toNat - 48

/-- Whether a character is one of the ASCII digits `0`..`9` (the regex class `\d`). -/
def isDigitC (c : Char) : Bool := 48 ≤ c.toNat && c.toNat ≤ 57

theorem dval_dc {d : Nat} (h : d < 10) : dval (dc d) = d := by
  interval_cases d <;> rfl

theorem isDigitC_dc {d : Nat} (h : d < 10) : isDigitC (dc d) = true := by
  interval_cases d <;> rfl

theorem ne_of_isDigitC {c c' : Char} (h : isDigitC c = true)
    (h' : isDigitC c' = false) : c ≠ c' := by
  intro he; rw [he] at h; rw [h'] at h; cases h

/-- Big-endian decimal digits of a natural number (`Number.prototype.toString`
semantics for naturals: no leading zeros, `0 ↦ [0]`). -/
def natDigits (n : Nat) : List Nat :=
  if h : n < 10 then [n] else natDigits (n / 10) ++ [n % 10]
  termination_by n
  decreasing_by
    simp only [not_lt] at h
    exact Nat.div_lt_self (by omega) (by omega)

/-- Decimal rendering of a natural number as characters. -/
def natRender (n : Nat) : List Char := (natDigits n).map dc

/-- Recompose a natural number from big-endian digits. -/
def valOfDigits (ds : List Nat) : Nat := ds.foldl (fun a d => 10 * a + d) 0

/-- Recompose a natural number from big-endian digit characters. -/
def valOfChars (cs : List Char) : Nat := cs.foldl (fun a c => 10 * a + dval c) 0

theorem natDigits_lt (n : Nat) : ∀ d ∈ natDigits n, d < 10 := by
  induction n using natDigits.induct with
  | case1 n h =>
      intro d hd
      rw [natDigits, dif_pos h] at hd
      simp at hd; omega
  | case2 n h ih =>
      intro d hd
      rw [natDigits, dif_neg (by simpa using h)] at hd
      rcases List.mem_append.mp hd with h1 | h2
      · exact ih d h1
      · simp at h2; omega

theorem natDigits_ne_nil (n : Nat) : natDigits n ≠ [] := by
  induction n using natDigits.induct with
  | case1 n h => rw [natDigits, dif_pos h]; simp
  | case2 n h ih => rw [natDigits, dif_neg (by simpa using h)]; simp

theorem valOfDigits_append (xs : List Nat) (d : Nat) :
    valOfDigits (xs ++ [d]) = 10 * valOfDigits xs + d := by
  simp [valOfDigits, List.foldl_append]

theorem valOfDigits_natDigits (n : Nat) : valOfDigits (natDigits n) = n := by
  induction n using natDigits.induct with
  | case1 n h => rw [natDigits, dif_pos h]; simp [valOfDigits]
  | case2 n h ih =>
      rw [natDigits, dif_neg (by simpa using h), valOfDigits_append, ih]
      omega

theorem valOfChars_map_dc (ds : List Nat) (h : ∀ d ∈ ds, d < 10) :
    valOfChars (ds.map dc) = valOfDigits ds := by
  suffices hgen : ∀ a : Nat,
      (ds.map dc).foldl (fun a c => 10 * a + dval c) a =
      ds.foldl (fun a d => 10 * a + d) a by
    exact hgen 0
  induction ds with
  | nil => intro a; rfl
  | cons d t ih =>
      intro a
      simp only [List.map_cons, List.foldl_cons]
      rw [dval_dc (h d (by simp))]
      exact ih (fun x hx => h x (by simp [hx])) _

theorem valOfChars_natRender (n : Nat) : valOfChars (natRender n) = n := by
  rw [natRender, valOfChars_map_dc _ (natDigits_lt n), valOfDigits_natDigits]

theorem natRender_ne_nil (n : Nat) : natRender n ≠ [] := by
  simp [natRender, natDigits_ne_nil n]

theorem natRender_digits (n : Nat) : ∀ c ∈ natRender n, isDigitC c = true := by
  intro c hc
  rcases List.mem_map.mp hc with ⟨d, hd, rfl⟩
  exact isDigitC_dc (natDigits_lt n d hd)

/-- Decimal rendering of an integer (JS `BigInt.prototype.toString`). -/
def intRender (i : Int) : List Char :=
  if i < 0 then '-' :: natRender i.natAbs else natRender i.natAbs

/-! ## The JS value model -/

/-- UTC calendar components of a JS `Date`, exactly the data that
`Date.prototype.toISOString` prints (`YYYY-MM-DDTHH:MM:SS.mmmZ`). -/
structure DateParts where
  year : Nat
  month : Nat
  day : Nat
  hour : Nat
  minute : Nat
  second : Nat
  millis : Nat
deriving DecidableEq, Repr

/-- The component ranges under which `toISOString` prints four/two/three digit
groups and `new Date` accepts the string back (a valid, in-range date). -/
def DateParts.okRanges (p : DateParts) : Prop :=
  p.year ≤ 9999 ∧ 1 ≤ p.month ∧ p.month ≤ 12 ∧ 1 ≤ p.day ∧ p.day ≤ 31 ∧
  p.hour ≤ 23 ∧ p.minute ≤ 59 ∧ p.second ≤ 59 ∧ p.millis ≤ 999

instance (p : DateParts) : Decidable p.okRanges := by
  unfold DateParts.okRanges; infer_instance

/-- JavaScript runtime values as far as the embedded code observes them.
Objects are association lists of own enumerable string keys in insertion
order (`Object.entries` order). -/
inductive JsValue where
  | str : List Char → JsValue
  | num : Int → JsValue
  | bool : Bool → JsValue
  | null : JsValue
  | undefined : JsValue
  | bigint : Int → JsValue
  | date : DateParts → JsValue
  | arr : List JsValue → JsValue
  | obj : List (List Char × JsValue) → JsValue

/-- JS truthiness (`if (value)`). -/
def jsTruthy : JsValue → Bool
  | .str s => !s.isEmpty
  | .num n => n ≠ 0
  | .bool b => b
  | .null => false
  | .undefined => false
  | .bigint i => i ≠ 0
  | .date _ => true
  | .arr _ => true
  | .obj _ => true

/-- `a || b` (JS logical-or, returning the first truthy operand). -/
def jsOr (a b : JsValue) : JsValue := if jsTruthy a then a else b

/-- First binding of a key in an association list (JS objects have unique
keys, where lookup is the single binding). -/
def jsGetEntries : List (List Char × JsValue) → List Char → Option JsValue
  | [], _ => none
  | (k, v) :: t, q => if k = q then some v else jsGetEntries t q

/-- Property access `v[k]` on a modelled value: `undefined` for absent keys
and for every non-object receiver. -/
def jsGet (v : JsValue) (k : List Char) : JsValue :=
  match v with
  | .obj l => (jsGetEntries l k).getD .undefined
  | _ => .undefined

/-- Own enumerable entries used by object spread: objects spread their
entries, arrays spread index/element pairs, every other value contributes
nothing (JS `Date` instances have no own enumerable properties). -/
def jsEntries : JsValue → List (List Char × JsValue)
  | .obj l => l
  | .arr xs => (xs.enum).map fun p => (natRender p.1, p.2)
  | _ => []

/-- Entry-list spread `[...a, ...b]` with object-key semantics: keys of `a`
keep their positions (values overridden by `b` where present), then keys of
`b` not in `a` follow in `b`'s order. -/
def spread2 (a b : List (List Char × JsValue)) : List (List Char × JsValue) :=
  (a.map fun kv =>
    match jsGetEntries b kv.1 with
    | some w => (kv.1, w)
    | none => kv) ++
  b.filter fun kv => (jsGetEntries a kv.1).isNone

/-- Object spread `{...a, ...b}`. -/
def jsSpread (a b : JsValue) : JsValue := .obj (spread2 (jsEntries a) (jsEntries b))

/-- `delete v[k]` on a copied object (remaining keys keep their order). -/
def jsDelete (v : JsValue) (k : List Char) : JsValue :=
  match v with
  | .obj l => .obj (l.filter fun kv => ¬(kv.1 = k))
  | _ => v

/-- Property assignment on entries: an existing key keeps its position, a
new key is appended. -/
def setEntries : List (List Char × JsValue) → List Char → JsValue →
    List (List Char × JsValue)
  | [], k, x => [(k, x)]
  | (k', v') :: t, k, x =>
      if k' = k then (k, x) :: t else (k', v') :: setEntries t k x

/-- `v[k] = x` (a no-op on the non-object receivers, which never occur on
the contexts this is applied to). -/
def jsSetKey (v : JsValue) (k : List Char) (x : JsValue) : JsValue :=
  match v with
  | .obj l => .obj (setEntries l k x)
  | w => w

/-- `typeof v === 'object' && v` is truthy: objects, arrays and dates
(`null` is excluded by truthiness). -/
def isObjType : JsValue → Bool
  | .obj _ => true
  | .arr _ => true
  | .date _ => true
  | _ => false

/-! ## String classifiers used by `deserializeBigIntsAndDates` -/

/-- `s.startsWith(xy)` for a two-character pattern. -/
def starts2 (c₁ c₂ : Char) : List Char → Bool
  | a :: b :: _ => a = c₁ && b = c₂
  | _ => false

/-- Matches `\d*n$` (zero or more digits then a final `n`). -/
def digitsTailN : List Char → Bool
  | [] => false
  | [c] => c = 'n'
  | c :: rest => isDigitC c && digitsTailN rest

/-- Matches `\d+n$` (one or more digits then a final `n`). -/
def digitsThenN : List Char → Bool
  | [] => false
  | c :: rest => isDigitC c && digitsTailN rest

/-- The decoder's BigInt pattern `^-?\d+n$`. -/
def bigintMatch (s : List Char) : Bool :=
  match s with
  | [] => false
  | c :: rest => if c = '-' then digitsThenN rest else digitsThenN (c :: rest)

/-- `BigInt(str)` on an optionally-signed digit string. -/
def parseBig (s : List Char) : Int :=
  match s with
  | [] => 0
  | c :: rest => if c = '-' then -(Int.ofNat (valOfChars rest)) else Int.ofNat (valOfChars s)

/-- `BigInt(value.slice(0, -1))`: drop the trailing `n` sentinel and parse. -/
def bigintValue (s : List Char) : Int := parseBig s.dropLast

/-- Tail of the ISO regex after the seconds: optional `[+-]\d\d:\d\d` or `Z`. -/
def tzTail : List Char → Bool
  | [] => true
  | [c] => c = 'Z'
  | [sg, a, b, cl, d, e] =>
      (sg = '+' || sg = '-') && isDigitC a && isDigitC b && (cl = ':') &&
      isDigitC d && isDigitC e
  | _ => false

/-- After `\.`: one or more digits, then the timezone tail. -/
def fracCont : List Char → Bool
  | [] => true
  | c :: rest => if isDigitC c then fracCont rest else tzTail (c :: rest)

def fracTail : List Char → Bool
  | [] => false
  | c :: rest => isDigitC c && fracCont rest

/-- Optional fractional-seconds group, then optional timezone. -/
def isoTail : List Char → Bool
  | [] => true
  | c :: rest => if c = '.' then fracTail rest else tzTail (c :: rest)

/-- The decoder's `ISO_DATE_REGEX`
`^\d{4}-\d{2}-\d{2}T\d{2}:\d{2}:\d{2}(\.\d+)?(Z|[+-]\d{2}:\d{2})?$`. -/
def isoRegexMatch (s : List Char) : Bool :=
  match s with
  | y1 :: y2 :: y3 :: y4 :: h5 :: m1 :: m2 :: h8 :: d1 :: d2 :: hT :: h1 :: h2 ::
    hc :: mi1 :: mi2 :: hc2 :: s1 :: s2 :: rest =>
      isDigitC y1 && isDigitC y2 && isDigitC y3 && isDigitC y4 && (h5 = '-') &&
      isDigitC m1 && isDigitC m2 && (h8 = '-') && isDigitC d1 && isDigitC d2 &&
      (hT = 'T') && isDigitC h1 && isDigitC h2 && (hc = ':') && isDigitC mi1 &&
      isDigitC mi2 && (hc2 = ':') && isDigitC s1 && isDigitC s2 && isoTail rest
  | _ => false

/-! ## The Date built-in, restricted to the canonical format -/

def pad2 (n : Nat) : List Char := [dc (n / 10 % 10), dc (n % 10)]
def pad3 (n : Nat) : List Char := [dc (n / 100 % 10), dc (n / 10 % 10), dc (n % 10)]
def pad4 (n : Nat) : List Char :=
  [dc (n / 1000 % 10), dc (n / 100 % 10), dc (n / 10 % 10), dc (n % 10)]

/-- `Date.prototype.toISOString`: the canonical 24-character UTC rendering
`YYYY-MM-DDTHH:MM:SS.mmmZ`. -/
def isoRender (p : DateParts) : List Char :=
  pad4 p.year ++ '-' :: (pad2 p.month ++ '-' :: (pad2 p.day ++ 'T' ::
    (pad2 p.hour ++ ':' :: (pad2 p.minute ++ ':' ::
      (pad2 p.second ++ '.' :: (pad3 p.millis ++ ['Z']))))))

/-- Model of `new Date(s)` followed by the `!isNaN(date.getTime())` validity
check.  The JS built-in also accepts other layouts (offset timezones, missing
fraction, non-ISO forms); this model accepts exactly the canonical UTC format
produced by `toISOString` — the only strings the embedded encoder ever
produces — and conservatively rejects the rest. -/
def jsNewDate (s : List Char) : Option DateParts :=
  match s with
  | [y1, y2, y3, y4, c5, m1, m2, c8, d1, d2, cT, h1, h2, cA, mi1, mi2, cB,
     s1, s2, cD, f1, f2, f3, cZ] =>
      if c5 = '-' ∧ c8 = '-' ∧ cT = 'T' ∧ cA = ':' ∧ cB = ':' ∧ cD = '.' ∧ cZ = 'Z' ∧
         isDigitC y1 ∧ isDigitC y2 ∧ isDigitC y3 ∧ isDigitC y4 ∧
         isDigitC m1 ∧ isDigitC m2 ∧ isDigitC d1 ∧ isDigitC d2 ∧
         isDigitC h1 ∧ isDigitC h2 ∧ isDigitC mi1 ∧ isDigitC mi2 ∧
         isDigitC s1 ∧ isDigitC s2 ∧ isDigitC f1 ∧ isDigitC f2 ∧ isDigitC f3 then
        let y := 1000 * dval y1 + 100 * dval y2 + 10 * dval y3 + dval y4
        let mo := 10 * dval m1 + dval m2
        let d := 10 * dval d1 + dval d2
        let h := 10 * dval h1 + dval h2
        let mi := 10 * dval mi1 + dval mi2
        let sec := 10 * dval s1 + dval s2
        let ms := 100 * dval f1 + 10 * dval f2 + dval f3
        if 1 ≤ mo ∧ mo ≤ 12 ∧ 1 ≤ d ∧ d ≤ 31 ∧ h ≤ 23 ∧ mi ≤ 59 ∧ sec ≤ 59 then
          some ⟨y, mo, d, h, mi, sec, ms⟩
        else none
      else none
  | _ => none

/-! ## The serialization codec (`src/index.js`, current revision) -/

mutual
/-- `RpcEndpoint.#serializeValue` (hence `serializeBigIntsAndDates`): BigInt
to digit string with `n` suffix, Date to ISO string (`D:`-prefixed iff safe
mode), strings `S:`-prefixed iff safe mode, recursion into arrays and plain
objects, everything else unchanged.  The unsafe-mode advisory warnings are a
logging side effect and have no bearing on the value returned. -/
def serializeValue (safe : Bool) : JsValue → JsValue
  | .bigint i => .str (intRender i ++ ['n'])
  | .date p => .str (if safe then 'D' :: ':' :: isoRender p else isoRender p)
  | .str s => if safe then .str ('S' :: ':' :: s) else .str s
  | .arr xs => .arr (serializeList safe xs)
  | .obj l => .obj (serializeEntries safe l)
  | v => v

def serializeList (safe : Bool) : List JsValue → List JsValue
  | [] => []
  | v :: t => serializeValue safe v :: serializeList safe t

def serializeEntries (safe : Bool) :
    List (List Char × JsValue) → List (List Char × JsValue)
  | [] => []
  | (k, v) :: t => (k, serializeValue safe v) :: serializeEntries safe t
end

/-- The string branch of `deserializeBigIntsAndDates`, with the source's
branch order: `S:` strip (safe mode), `D:` strip-and-parse (safe mode,
falling through to the later checks when the parse is invalid), the BigInt
pattern (always), and the bare ISO pattern (only when safe mode is off). -/
def deserializeStr (safe : Bool) (s : List Char) : JsValue :=
  if safe ∧ starts2 'S' ':' s then .str (s.drop 2)
  else
    match (if safe ∧ starts2 'D' ':' s then jsNewDate (s.drop 2) else none) with
    | some p => .date p
    | none =>
        if bigintMatch s then .bigint (bigintValue s)
        else
          match (if ¬safe ∧ isoRegexMatch s then jsNewDate s else none) with
          | some p => .date p
          | none => .str s

mutual
/-- `RpcEndpoint.deserializeBigIntsAndDates(value, options)` (current
revision), with `safe` the effective `safeEnabled` flag (the provided
options' flag, or the server's own when none are provided). -/
def deserializeValue (safe : Bool) : JsValue → JsValue
  | .str s => deserializeStr safe s
  | .arr xs => .arr (deserializeList safe xs)
  | .obj l => .obj (deserializeEntries safe l)
  | v => v

def deserializeList (safe : Bool) : List JsValue → List JsValue
  | [] => []
  | v :: t => deserializeValue safe v :: deserializeList safe t

def deserializeEntries (safe : Bool) :
    List (List Char × JsValue) → List (List Char × JsValue)
  | [] => []
  | (k, v) :: t => (k, deserializeValue safe v) :: deserializeEntries safe t
end

/-- The legacy `deserializeBigIntsAndDates` (the superseded revision embedded
after the current one in `src/index.js`): it takes no safe-mode options and
its BigInt pattern is `^-?\d+n?$` — the trailing `n` is optional there. -/
def legacyBigintMatch (s : List Char) : Bool :=
  match s with
  | [] => false
  | c :: rest => if c = '-' then legacyDigits rest else legacyDigits (c :: rest)
where
  legacyDigits : List Char → Bool
    | [] => false
    | [c] => c = 'n' || isDigitC c
    | c :: rest => isDigitC c && legacyDigits rest

/-- The legacy decoder's string branch (`value.replace(/n$/, '')` then
`BigInt`), for comparison with the current decoder. -/
def legacyDeserializeStr (s : List Char) : JsValue :=
  if legacyBigintMatch s then
    .bigint (parseBig (if s.getLast? = some 'n' then s.dropLast else s))
  else
    match (if isoRegexMatch s then jsNewDate s else none) with
    | some p => .date p
    | none => .str s

/-! ## Codec lemmas -/

theorem isDigitC_dc_mod (n : Nat) : isDigitC (dc (n % 10)) = true :=
  isDigitC_dc (Nat.mod_lt _ (by omega))

theorem dval_dc_mod (n : Nat) : dval (dc (n % 10)) = n % 10 :=
  dval_dc (Nat.mod_lt _ (by omega))

theorem starts2_false_of_head {c c₁ c₂ : Char} (t : List Char) (h : c ≠ c₁) :
    starts2 c₁ c₂ (c :: t) = false := by
  cases t <;> simp [starts2, h]

theorem digitsTailN_digits_append {l : List Char}
    (h : ∀ c ∈ l, isDigitC c = true) : digitsTailN (l ++ ['n']) = true := by
  induction l with
  | nil => rfl
  | cons c t ih =>
      have hc := h c (by simp)
      have ht := ih fun x hx => h x (by simp [hx])
      cases t with
      | nil => simp [digitsTailN, hc]
      | cons d t' => simpa [digitsTailN, hc] using ht

theorem digitsThenN_digits_append {l : List Char} (hne : l ≠ [])
    (h : ∀ c ∈ l, isDigitC c = true) : digitsThenN (l ++ ['n']) = true := by
  obtain ⟨c, t, rfl⟩ := List.exists_cons_of_ne_nil hne
  have hc := h c (by simp)
  have ht := digitsTailN_digits_append (l := t) fun x hx => h x (by simp [hx])
  simp only [List.cons_append, digitsThenN, hc, ht, Bool.and_self]

theorem isDigitC_dash : isDigitC '-' = false := rfl
theorem isDigitC_S : isDigitC 'S' = false := rfl
theorem isDigitC_D : isDigitC 'D' = false := rfl

theorem bigintMatch_natRender_n (n : Nat) :
    bigintMatch (natRender n ++ ['n']) = true := by
  obtain ⟨c, t, he⟩ := List.exists_cons_of_ne_nil (natRender_ne_nil n)
  have hall : ∀ x ∈ c :: t, isDigitC x = true := he ▸ natRender_digits n
  have hc : isDigitC c = true := hall c (List.mem_cons_self c t)
  have hcd : c ≠ '-' := ne_of_isDigitC hc isDigitC_dash
  rw [he, List.cons_append]
  simp only [bigintMatch, if_neg hcd]
  rw [← List.cons_append]
  exact digitsThenN_digits_append (by simp) hall

/-- The serialized form of a BigInt matches the decoder's `^-?\d+n$` pattern. -/
theorem bigintMatch_intRender (i : Int) :
    bigintMatch (intRender i ++ ['n']) = true := by
  unfold intRender
  split
  · simp only [List.cons_append, bigintMatch, if_pos]
    exact digitsThenN_digits_append (natRender_ne_nil _) (natRender_digits _)
  · exact bigintMatch_natRender_n _

theorem parseBig_natRender (n : Nat) : parseBig (natRender n) = Int.ofNat n := by
  obtain ⟨c, t, he⟩ := List.exists_cons_of_ne_nil (natRender_ne_nil n)
  have hall : ∀ x ∈ c :: t, isDigitC x = true := he ▸ natRender_digits n
  have hc : isDigitC c = true := hall c (List.mem_cons_self c t)
  have hne : c ≠ '-' := ne_of_isDigitC hc isDigitC_dash
  rw [he, parseBig, if_neg hne, ← he, valOfChars_natRender]

/-- The serialized form of a BigInt parses back to the same integer. -/
theorem bigintValue_intRender (i : Int) :
    bigintValue (intRender i ++ ['n']) = i := by
  unfold bigintValue
  rw [List.dropLast_concat]
  unfold intRender
  split
  · next hlt =>
      rw [parseBig, if_pos rfl, valOfChars_natRender]
      simp only [Int.ofNat_eq_coe]
      omega
  · next hge =>
      rw [parseBig_natRender]
      simp only [Int.ofNat_eq_coe]
      omega

theorem starts2_intRender_n (c₁ c₂ : Char) (h₁ : isDigitC c₁ = false)
    (h₂ : c₁ ≠ '-') (i : Int) : starts2 c₁ c₂ (intRender i ++ ['n']) = false := by
  unfold intRender
  split
  · simp only [List.cons_append]
    exact starts2_false_of_head _ (Ne.symm h₂)
  · obtain ⟨c, t, he⟩ := List.exists_cons_of_ne_nil (natRender_ne_nil i.natAbs)
    have hall : ∀ x ∈ c :: t, isDigitC x = true := he ▸ natRender_digits i.natAbs
    have hc : isDigitC c = true := hall c (List.mem_cons_self c t)
    rw [he, List.cons_append]
    exact starts2_false_of_head _ (ne_of_isDigitC hc h₁)

theorem isDigitC_Z : isDigitC 'Z' = false := rfl

/-- `new Date` accepts the canonical `toISOString` output of an in-range date
and recovers the same components. -/
theorem jsNewDate_isoRender (p : DateParts) (h : p.okRanges) :
    jsNewDate (isoRender p) = some p := by
  obtain ⟨hy, hm1, hm2, hd1, hd2, hh, hmi, hs, hms⟩ := h
  simp only [isoRender, pad4, pad3, pad2, List.cons_append, List.nil_append,
    jsNewDate, isDigitC_dc_mod, dval_dc_mod]
  have ey : 1000 * (p.year / 1000 % 10) + 100 * (p.year / 100 % 10) +
      10 * (p.year / 10 % 10) + p.year % 10 = p.year := by omega
  have emo : 10 * (p.month / 10 % 10) + p.month % 10 = p.month := by omega
  have ed : 10 * (p.day / 10 % 10) + p.day % 10 = p.day := by omega
  have eh : 10 * (p.hour / 10 % 10) + p.hour % 10 = p.hour := by omega
  have emi : 10 * (p.minute / 10 % 10) + p.minute % 10 = p.minute := by omega
  have es : 10 * (p.second / 10 % 10) + p.second % 10 = p.second := by omega
  have ems : 100 * (p.millis / 100 % 10) + 10 * (p.millis / 10 % 10) +
      p.millis % 10 = p.millis := by omega
  simp only [ey, emo, ed, eh, emi, es, ems]
  simp [hm1, hm2, hd1, hd2, hh, hmi, hs]

/-- The canonical `toISOString` output matches the decoder's `ISO_DATE_REGEX`. -/
theorem isoRegexMatch_isoRender (p : DateParts) :
    isoRegexMatch (isoRender p) = true := by
  simp only [isoRender, pad4, pad3, pad2, List.cons_append, List.nil_append,
    isoRegexMatch, isoTail, fracTail, fracCont, tzTail, isDigitC_dc_mod,
    isDigitC_Z, Bool.and_true, Bool.true_and, Bool.and_self, if_true, if_false,
    reduceIte, decide_True, decide_False]
  rfl

/-- The canonical `toISOString` output does not match the BigInt pattern. -/
theorem bigintMatch_isoRender (p : DateParts) :
    bigintMatch (isoRender p) = false := by
  have hnd : dc (p.year / 1000 % 10) ≠ '-' :=
    ne_of_isDigitC (isDigitC_dc_mod _) isDigitC_dash
  simp only [isoRender, pad4, pad3, pad2, List.cons_append, List.nil_append,
    bigintMatch, if_neg hnd, digitsThenN, digitsTailN, isDigitC_dc_mod,
    isDigitC_dash, Bool.true_and, Bool.false_and, Bool.and_false]

mutual
/-- Every `Date` in the value is a valid in-range date (the values on which
`toISOString` does not throw and prints the four-digit-year format). -/
def wfVal : JsValue → Bool
  | .date p => decide p.okRanges
  | .arr xs => wfList xs
  | .obj l => wfEntries l
  | _ => true

def wfList : List JsValue → Bool
  | [] => true
  | v :: t => wfVal v && wfList t

def wfEntries : List (List Char × JsValue) → Bool
  | [] => true
  | (_, v) :: t => wfVal v && wfEntries t
end

mutual
/-- No string anywhere in the value matches the decoder's BigInt pattern
`^-?\d+n$` or its `ISO_DATE_REGEX` (confusable strings). -/
def plainVal : JsValue → Bool
  | .str s => !bigintMatch s && !isoRegexMatch s
  | .arr xs => plainList xs
  | .obj l => plainEntries l
  | _ => true

def plainList : List JsValue → Bool
  | [] => true
  | v :: t => plainVal v && plainList t

def plainEntries : List (List Char × JsValue) → Bool
  | [] => true
  | (_, v) :: t => plainVal v && plainEntries t
end

mutual
/-- Safe-mode round trip: with `safeEnabled` on both sides, decoding the
encoding restores any value whose dates are in range. -/
theorem roundtripSafe : ∀ (v : JsValue), wfVal v = true →
    deserializeValue true (serializeValue true v) = v
  | .str s, _ => rfl
  | .num n, _ => rfl
  | .bool b, _ => rfl
  | .null, _ => rfl
  | .undefined, _ => rfl
  | .bigint i, _ => by
      have h1 := starts2_intRender_n 'S' ':' isDigitC_S (by decide) i
      have h2 := starts2_intRender_n 'D' ':' isDigitC_D (by decide) i
      simp [serializeValue, deserializeValue, deserializeStr, h1, h2,
        bigintMatch_intRender, bigintValue_intRender]
  | .date p, h => by
      have hp : p.okRanges := of_decide_eq_true (by simpa [wfVal] using h)
      simp [serializeValue, deserializeValue, deserializeStr, starts2,
        jsNewDate_isoRender p hp]
  | .arr xs, h => by
      simp only [serializeValue, deserializeValue]
      rw [roundtripSafeList xs (by simpa [wfVal] using h)]
  | .obj l, h => by
      simp only [serializeValue, deserializeValue]
      rw [roundtripSafeEntries l (by simpa [wfVal] using h)]

theorem roundtripSafeList : ∀ (xs : List JsValue), wfList xs = true →
    deserializeList true (serializeList true xs) = xs
  | [], _ => rfl
  | v :: t, h => by
      have hv : wfVal v = true := by
        have := h; simp [wfList] at this; exact this.1
      have ht : wfList t = true := by
        have := h; simp [wfList] at this; exact this.2
      simp only [serializeList, deserializeList]
      rw [roundtripSafe v hv, roundtripSafeList t ht]

theorem roundtripSafeEntries : ∀ (l : List (List Char × JsValue)),
    wfEntries l = true →
    deserializeEntries true (serializeEntries true l) = l
  | [], _ => rfl
  | (k, v) :: t, h => by
      have hv : wfVal v = true := by
        have := h; simp [wfEntries] at this; exact this.1
      have ht : wfEntries t = true := by
        have := h; simp [wfEntries] at this; exact this.2
      simp only [serializeEntries, deserializeEntries]
      rw [roundtripSafe v hv, roundtripSafeEntries t ht]
end

mutual
/-- Unsafe-mode round trip: with `safeEnabled` off on both sides, decoding the
encoding restores any value whose dates are in range and whose strings are
not confusable with encoded BigInt/Date tokens. -/
theorem roundtripUnsafe : ∀ (v : JsValue), wfVal v = true → plainVal v = true →
    deserializeValue false (serializeValue false v) = v
  | .str s, _, hp => by
      have h1 : bigintMatch s = false := by
        have := hp; simp [plainVal] at this; exact this.1
      have h2 : isoRegexMatch s = false := by
        have := hp; simp [plainVal] at this; exact this.2
      simp [serializeValue, deserializeValue, deserializeStr, h1, h2]
  | .num n, _, _ => rfl
  | .bool b, _, _ => rfl
  | .null, _, _ => rfl
  | .undefined, _, _ => rfl
  | .bigint i, _, _ => by
      simp [serializeValue, deserializeValue, deserializeStr,
        bigintMatch_intRender, bigintValue_intRender]
  | .date p, h, _ => by
      have hp : p.okRanges := of_decide_eq_true (by simpa [wfVal] using h)
      simp [serializeValue, deserializeValue, deserializeStr,
        bigintMatch_isoRender, isoRegexMatch_isoRender,
        jsNewDate_isoRender p hp]
  | .arr xs, h, hp => by
      simp only [serializeValue, deserializeValue]
      rw [roundtripUnsafeList xs (by simpa [wfVal] using h)
        (by simpa [plainVal] using hp)]
  | .obj l, h, hp => by
      simp only [serializeValue, deserializeValue]
      rw [roundtripUnsafeEntries l (by simpa [wfVal] using h)
        (by simpa [plainVal] using hp)]

theorem roundtripUnsafeList : ∀ (xs : List JsValue), wfList xs = true →
    plainList xs = true →
    deserializeList false (serializeList false xs) = xs
  | [], _, _ => rfl
  | v :: t, h, hp => by
      have hv : wfVal v = true := by
        have := h; simp [wfList] at this; exact this.1
      have ht : wfList t = true := by
        have := h; simp [wfList] at this; exact this.2
      have hpv : plainVal v = true := by
        have := hp; simp [plainList] at this; exact this.1
      have hpt : plainList t = true := by
        have := hp; simp [plainList] at this; exact this.2
      simp only [serializeList, deserializeList]
      rw [roundtripUnsafe v hv hpv, roundtripUnsafeList t ht hpt]

theorem roundtripUnsafeEntries : ∀ (l : List (List Char × JsValue)),
    wfEntries l = true → plainEntries l = true →
    deserializeEntries false (serializeEntries false l) = l
  | [], _, _ => rfl
  | (k, v) :: t, h, hp => by
      have hv : wfVal v = true := by
        have := h; simp [wfEntries] at this; exact this.1
      have ht : wfEntries t = true := by
        have := h; simp [wfEntries] at this; exact this.2
      have hpv : plainVal v = true := by
        have := hp; simp [plainEntries] at this; exact this.1
      have hpt : plainEntries t = true := by
        have := hp; simp [plainEntries] at this; exact this.2
      simp only [serializeEntries, deserializeEntries]
      rw [roundtripUnsafe v hv hpv, roundtripUnsafeEntries t ht hpt]
end

/-- C1 (counterexample): the round-trip law fails as stated.  With matching
flags `safeEnabled = false` on both sides, the plain string value `"42n"` is
encoded unchanged and then decoded to the BigInt `42`, not back to the
string. -/
theorem c1_codec_roundtrip_counterexample :
    deserializeValue false (serializeValue false (JsValue.str "42n".data)) ≠
      JsValue.str "42n".data ∧
    deserializeValue false (serializeValue false (JsValue.str "42n".data)) =
      JsValue.bigint 42 := by
  refine ⟨?_, rfl⟩
  intro h
  exact JsValue.noConfusion h

/-- C1 (amended): for values built from strings, numbers, booleans, null,
in-range Dates, BigInts and nested arrays/objects of these, decoding the
encoding restores the value when the encoder's and decoder's `safeEnabled`
flags are both `true`; when both are `false` it restores the value provided
no string inside it matches the BigInt pattern `^-?\d+n$` or the decoder's
ISO-8601 date pattern (such strings decode to BigInt/Date instead). -/
theorem c1_codec_roundtrip :
    (∀ v : JsValue, wfVal v = true →
      deserializeValue true (serializeValue true v) = v) ∧
    (∀ v : JsValue, wfVal v = true → plainVal v = true →
      deserializeValue false (serializeValue false v) = v) :=
  ⟨roundtripSafe, roundtripUnsafe⟩

/-- C1 witness: the amended round-trip evaluated at concrete nested values. -/
theorem c1_codec_roundtrip_witness :
    deserializeValue true (serializeValue true
      (JsValue.obj [("a".data, JsValue.arr [JsValue.str "hello".data,
        JsValue.bigint (-42), JsValue.date ⟨2023, 1, 2, 3, 4, 5, 6⟩,
        JsValue.num 7, JsValue.bool true, JsValue.null])])) =
      JsValue.obj [("a".data, JsValue.arr [JsValue.str "hello".data,
        JsValue.bigint (-42), JsValue.date ⟨2023, 1, 2, 3, 4, 5, 6⟩,
        JsValue.num 7, JsValue.bool true, JsValue.null])] ∧
    deserializeValue false (serializeValue false
      (JsValue.arr [JsValue.str "abc".data, JsValue.bigint 5,
        JsValue.date ⟨1999, 12, 31, 23, 59, 59, 999⟩])) =
      JsValue.arr [JsValue.str "abc".data, JsValue.bigint 5,
        JsValue.date ⟨1999, 12, 31, 23, 59, 59, 999⟩] :=
  ⟨c1_codec_roundtrip.1 _ (by decide), c1_codec_roundtrip.2 _ (by decide) (by decide)⟩

/-- C4: in every safe-mode configuration the current decoder returns the
digit string `"0123456"` (leading zero, no trailing `n`) unchanged — never a
number or BigInt — and a string decodes to a BigInt only when it matches the
optionally-signed trailing-`n` pattern `^-?\d+n$`. -/
theorem c4_leading_zero :
    (∀ safe : Bool,
      deserializeValue safe (JsValue.str "0123456".data) =
        JsValue.str "0123456".data) ∧
    (∀ (safe : Bool) (s : List Char) (i : Int),
      deserializeValue safe (JsValue.str s) = JsValue.bigint i →
      bigintMatch s = true) := by
  constructor
  · intro safe; cases safe <;> rfl
  · intro safe s i h
    simp only [deserializeValue] at h
    unfold deserializeStr at h
    split at h
    · exact JsValue.noConfusion h
    · split at h
      · exact JsValue.noConfusion h
      · split at h
        · assumption
        · split at h
          · exact JsValue.noConfusion h
          · exact JsValue.noConfusion h

/-- C4 witness: the theorem evaluated at concrete inputs, with the BigInt
branch exercised on `"42n"`. -/
theorem c4_leading_zero_witness :
    deserializeValue true (JsValue.str "0123456".data) =
      JsValue.str "0123456".data ∧
    bigintMatch "42n".data = true :=
  ⟨c4_leading_zero.1 true, c4_leading_zero.2 true "42n".data 42 rfl⟩

/-! ## Errors, hooks and the middleware manager (`src/middleware.js`) -/

/-- A thrown JS error as the dispatcher observes it: its `code`, `message`
and `data` properties, `undefined` when absent. -/
structure JsError where
  code : JsValue
  message : JsValue
  data : JsValue

/-- A lifecycle hook `(context) => context-part | false | void`, which may
also throw.  Hooks are `await`ed one after the other (sequential cooperative
scheduling), so each invocation is a plain function of the accumulated
context. -/
def Hook := JsValue → Except JsError JsValue

/-- The internal chain-stop marker key. -/
def stopKey : List Char := "__middlewareStopped".data

/-- `middlewareResult === false`. -/
def isFalseLit : JsValue → Bool
  | .bool false => true
  | _ => false

/-- One iteration of the `reduce` inside `MiddlewareManager.execute`: skip
once the accumulated context carries the stop marker; otherwise run the hook
(a throw is swallowed for the `onError` stage `ie`, propagated for every
other stage), record a `false` return by merging the stop marker, shallow-
merge a truthy object return, and keep the context for any other return. -/
def execStep (ie : Bool) (h : Hook) (acc : JsValue) : Except JsError JsValue :=
  if jsTruthy acc && jsTruthy (jsGet acc stopKey) then .ok acc
  else
    match h acc with
    | .error e => if ie then .ok acc else .error e
    | .ok r =>
        if isFalseLit r then .ok (jsSpread acc (.obj [(stopKey, .bool true)]))
        else if jsTruthy r && isObjType r then .ok (jsSpread acc r)
        else .ok acc

def execFold (ie : Bool) : List Hook → JsValue → Except JsError JsValue
  | [], acc => .ok acc
  | h :: t, acc => (execStep ie h acc).bind (execFold ie t)

/-- `MiddlewareManager.execute(hook, context)`: fold the registered hooks in
registration order over the context, then strip the internal stop marker
from the final result before returning it. -/
def executeHooks (ie : Bool) (hooks : List Hook) (ctx : JsValue) :
    Except JsError JsValue :=
  (execFold ie hooks ctx).map fun fr =>
    if jsTruthy fr && jsTruthy (jsGet fr stopKey) then jsDelete fr stopKey
    else fr

/-- The five hook registries of a `MiddlewareManager`. -/
structure Middlewares where
  beforeCall : List Hook
  afterCall : List Hook
  onError : List Hook
  beforeValidation : List Hook
  afterValidation : List Hook

/-! ## Methods, schemas and envelopes -/

/-- One structured schema-validation violation as reported by the wrapped
JSON-Schema engine. -/
structure ValidationErr where
  instancePath : JsValue
  schemaPath : JsValue
  message : JsValue
  errData : JsValue

/-- Result of schema validation: `{valid, errors, data}`. -/
structure ValidationOut where
  valid : Bool
  errors : List ValidationErr
  data : JsValue

/-- A schema, modelled by its compiled validation function (the JSON-Schema
engine is an external collaborator). -/
def Schema := JsValue → ValidationOut

/-- A method handler `(req, context, params) => result`, which may throw.
The transport request is passed through opaquely as a modelled value. -/
def Handler := JsValue → JsValue → JsValue → Except JsError JsValue

/-- A registered method-table entry: either a bare handler function or a
config object with a handler and an optional schema (the other registration
metadata plays no role in dispatch). -/
inductive MethodConfig where
  | fn : Handler → MethodConfig
  | cfg : Handler → Option Schema → MethodConfig

/-- Lookup in the string-keyed method table `#methods`. -/
def lookupMethod : List (List Char × MethodConfig) → List Char →
    Option MethodConfig
  | [], _ => none
  | (k, c) :: t, q => if k = q then some c else lookupMethod t q

/-- `typeof methodConfig === 'function' ? methodConfig : methodConfig.handler`. -/
def MethodConfig.handler : MethodConfig → Handler
  | .fn h => h
  | .cfg h _ => h

/-- `typeof methodConfig === 'object' ? methodConfig.schema : null`. -/
def MethodConfig.schema : MethodConfig → Option Schema
  | .fn _ => none
  | .cfg _ s => s

/-- Calling a method-table entry as a function, which the batch path does
directly (`this.endpoint.methods[method]` is invoked without unwrapping
`.handler`): a bare function runs; a config object is not callable, so the
call throws a TypeError. -/
def MethodConfig.callAsFunction : MethodConfig → Handler
  | .fn h => h
  | .cfg _ _ => fun _ _ _ =>
      .error ⟨.undefined, .str "handler is not a function".data, .undefined⟩

/-- A JSON-RPC error object as emitted in responses; `errinfo` carries the
`error: serializeError(err, true)` debug field the single-request path adds. -/
structure ErrObj where
  code : JsValue
  message : JsValue
  data : Option JsValue
  errinfo : Option JsValue

/-- A response envelope as handed to the transport JSON writer.  The constant
field `jsonrpc: '2.0'` is present in every construction site in the source
and is omitted from the model. -/
structure Envelope where
  id : JsValue
  result : Option JsValue
  error : Option ErrObj

/-- `id === undefined ? null : id`. -/
def undefToNull : JsValue → JsValue
  | .undefined => .null
  | v => v

/-- `RpcEndpoint.reply(res, {id, result, error})`: build the envelope with an
`undefined` id defaulted to `null`, setting the `error` field when the error
value is truthy (callers pass either an error object or nothing) and the
`result` field otherwise.  The `X-RPC-Safe-Enabled` response header and the
`res.json` write are transport side effects outside the envelope. -/
def reply (id : JsValue) (result : JsValue) (error : Option ErrObj) : Envelope :=
  { id := undefToNull id
    result := match error with | some _ => none | none => some result
    error := error }

/-- `serializeError(err, true)` restricted to the modelled error shape (an
`Error` instance carrying at most `code`, `message` and `data` as listed
properties; `data` is not in the default property list): the defined listed
properties in list order plus the `type` tag. -/
def serializeErrorModel (e : JsError) : JsValue :=
  .obj ((match e.code with
         | .undefined => []
         | c => [("code".data, c)]) ++
        (match e.message with
         | .undefined => []
         | m => [("message".data, m)]) ++
        [("type".data, .str "Error".data)])

/-- The Error reference exposed on the `onError` hook context, modelled by
its observable own properties. -/
def errAsValue (e : JsError) : JsValue :=
  .obj [("code".data, e.code), ("message".data, e.message), ("data".data, e.data)]

/-- Server options of the current revision relevant to dispatch. -/
structure Opts where
  safeEnabled : Bool
  strictMode : Bool

/-- `jsonrpc !== '2.0'`, negated. -/
def isStr2 : JsValue → Bool
  | .str s => s = "2.0".data
  | _ => false

/-! ## The single-request dispatcher (`RpcEndpoint.#processSingleRequest`) -/

/-- Truthiness of the `x-rpc-safe-enabled` request header value (absent or
empty is falsy). -/
def headerTruthy : Option (List Char) → Bool
  | none => false
  | some s => !s.isEmpty

/-- `clientSafeHeader === 'true'`. -/
def clientSafeOf : Option (List Char) → Bool
  | some s => s = "true".data
  | none => false

/-- The body of the `try` block of `#processSingleRequest`, after method
resolution: the strict-mode negotiation gate (an early `reply`), parameter
deserialization with the client's advertised flag, the `beforeCall` chain,
optional schema validation bracketed by its hooks, the handler invocation,
the `afterCall` chain (result discarded), and the success reply carrying the
serialized result.  A `.error` is a throw that the caller's `catch` handles.
The `req`/`res` transport handles placed on the hook context are reference
values and are omitted from the modelled context object, which carries the
data fields in source order. -/
def trySingleBody (opts : Opts) (mw : Middlewares) (req context : JsValue)
    (startTime : Int) (safeHeader : Option (List Char)) (params id : JsValue)
    (m : List Char) (handler : Handler) (schema : Option Schema) :
    Except JsError Envelope :=
  if opts.strictMode && opts.safeEnabled && !headerTruthy safeHeader then
    .ok (reply id .undefined (some ⟨.num (-32600),
      .str "RPC Compatibility Error: Server requires safe serialization header but client did not provide it.".data,
      some (.obj [("serverSafeEnabled".data, .bool opts.safeEnabled),
                  ("requiredHeader".data, .str "X-RPC-Safe-Enabled".data),
                  ("strictMode".data, .bool true),
                  ("solution".data, .str "Update client to rpc-express-toolkit v4+ or disable server strict mode".data)]),
      none⟩))
  else
    (executeHooks false mw.beforeCall (JsValue.obj
      [("method".data, .str m),
       ("params".data,
         if jsTruthy params then deserializeValue (clientSafeOf safeHeader) params
         else params),
       ("context".data, context), ("id".data, id),
       ("startTime".data, .num startTime)])).bind fun ctx1 =>
      (match schema with
       | some sch =>
           (executeHooks false mw.beforeValidation ctx1).bind fun ctx2 =>
             let vres := sch (jsGet ctx2 "params".data)
             if vres.valid then
               executeHooks false mw.afterValidation
                 (jsSetKey ctx2 "params".data vres.data)
             else
               .error ⟨.num (-32602), .str "Validation failed".data,
                 .obj [("validationErrors".data,
                   .arr (vres.errors.map fun (er : ValidationErr) =>
                     .obj [("field".data, jsOr er.instancePath er.schemaPath),
                           ("message".data, er.message),
                           ("value".data, er.errData)]))]⟩
       | none => .ok ctx1).bind fun ctxv =>
      (handler req context (jsGet ctxv "params".data)).bind fun result =>
        (executeHooks false mw.afterCall
          (jsSetKey ctxv "result".data result)).map fun _ =>
          reply id (serializeValue opts.safeEnabled result) none

/-- The `try`/`catch` of `#processSingleRequest` around a resolved method:
on a throw, run the `onError` chain best-effort over a fresh context built
from the original (un-deserialized) params — its outcome is discarded — and
reply with the normalized error, preserving a truthy thrown `code` (else
`-32603`), a truthy `message` (else `Internal error`), a truthy `data`, and
the serialized error debug field. -/
def processFound (opts : Opts) (mw : Middlewares) (req context : JsValue)
    (startTime now : Int) (safeHeader : Option (List Char)) (params id : JsValue)
    (m : List Char) (handler : Handler) (schema : Option Schema) : Envelope :=
  match trySingleBody opts mw req context startTime safeHeader params id m
      handler schema with
  | .ok env => env
  | .error e =>
      let _ := executeHooks true mw.onError (JsValue.obj [
        ("method".data, .str m), ("params".data, params),
        ("context".data, context), ("id".data, id),
        ("error".data, errAsValue e), ("startTime".data, .num startTime),
        ("duration".data, .num (now - startTime))])
      reply id .undefined (some ⟨jsOr e.code (.num (-32603)),
        jsOr e.message (.str "Internal error".data),
        (if jsTruthy e.data then some e.data else none),
        some (serializeErrorModel e)⟩)

/-- `RpcEndpoint.#processSingleRequest` (current revision): destructure the
body (`req.body || {}`), validate the `jsonrpc` version and `method` type
(code `-32600`), resolve the method (`-32601`), then run the resolved
handler under the try/catch pipeline.  The dispatcher replies exactly once
on every path — there is no notification check in this path. -/
def processSingleRequest (opts : Opts)
    (methods : List (List Char × MethodConfig)) (mw : Middlewares)
    (req context : JsValue) (startTime now : Int)
    (safeHeader : Option (List Char)) (body : JsValue) : Envelope :=
  let b := jsOr body (.obj [])
  let params := jsGet b "params".data
  let id := jsGet b "id".data
  if !isStr2 (jsGet b "jsonrpc".data) then
    reply id .undefined (some ⟨.num (-32600),
      .str "Invalid Request: jsonrpc must be 2.0.".data, none, none⟩)
  else
    match jsGet b "method".data with
    | .str m =>
        (match lookupMethod methods m with
         | none => reply id .undefined (some ⟨.num (-32601),
             .str ("Method \"".data ++ m ++ "\" not found".data), none, none⟩)
         | some mc => processFound opts mw req context startTime now safeHeader
             params id m mc.handler mc.schema)
    | _ => reply id .undefined (some ⟨.num (-32600),
        .str "Invalid Request: method must be a string.".data, none, none⟩)

/-! ## The batch handler (`src/batch.js`) -/

/-- `BatchHandler.isBatchRequest`: a non-empty array. -/
def isBatchRequest : JsValue → Bool
  | .arr xs => !xs.isEmpty
  | _ => false

/-- SameValueZero as used by `Set` membership: structural equality on
primitives.  Distinct object/array/date references never compare equal, and
every modelled composite id arises from a distinct parse, so composites
compare unequal here. -/
def jsSameValueZero : JsValue → JsValue → Bool
  | .str a, .str b => a = b
  | .num a, .num b => a = b
  | .bool a, .bool b => a = b
  | .null, .null => true
  | .undefined, .undefined => true
  | .bigint a, .bigint b => a = b
  | _, _ => false

/-- `Set` insertion (keep the first occurrence). -/
def setAdd (acc : List JsValue) (v : JsValue) : List JsValue :=
  if acc.any fun w => jsSameValueZero w v then acc else acc ++ [v]

/-- `new Set(ids)` as the list of distinct elements in insertion order. -/
def jsSetOf (l : List JsValue) : List JsValue := l.foldl setAdd []

/-- `id !== undefined && id !== null`. -/
def isDeclaredId : JsValue → Bool
  | .undefined => false
  | .null => false
  | _ => true

/-- `id === undefined || id === null` (the notification test). -/
def isNotifId : JsValue → Bool
  | .undefined => true
  | .null => true
  | _ => false

/-- Outcome of `BatchHandler.validateBatch`. -/
inductive BatchCheck where
  | valid
  | invalid (code : Int) (message : List Char)

/-- `BatchHandler.validateBatch` on array input (the route only reaches it
through `isBatchRequest`, so the non-array branch is not taken): an empty
batch and a batch whose declared (non-null, non-undefined) ids repeat are
invalid with code `-32600`. -/
def validateBatch (batch : List JsValue) : BatchCheck :=
  if batch.isEmpty then
    .invalid (-32600) "Invalid Request: Batch cannot be empty".data
  else
    let ids := (batch.map fun r => jsGet r "id".data).filter isDeclaredId
    if ids.length ≠ (jsSetOf ids).length then
      .invalid (-32600) "Invalid Request: Duplicate IDs in batch".data
    else .valid

/-- `BatchHandler.processSingleRequest(request, req, context, batchIndex)`:
per-item envelope validation and method lookup (each error envelope carries
`id: id || null` and `data: {batchIndex}` — these run before the
notification check, so a notification failing them still yields an
envelope), then the hook/handler pipeline with `null` (no contribution) for
notifications on success and on error.  In the `catch` block the source
first attempts to run the `onError` hooks over
`{...middlewareContext, error, batchIndex}`, but `middlewareContext` is
let-scoped inside the `try` block and is not in scope in the `catch`:
evaluating it throws a ReferenceError inside the inner `try`, which is
caught and ignored, so the `onError` chain is never reached and no hook in
it is invoked.  This function never throws, so the per-item `catch` in
`processBatch` is unreachable. -/
def processBatchItem (opts : Opts)
    (methods : List (List Char × MethodConfig)) (mw : Middlewares)
    (req context : JsValue) (request : JsValue) (batchIndex : Nat) :
    Option Envelope :=
  let params := jsGet request "params".data
  let id := jsGet request "id".data
  let bIdx := JsValue.obj [("batchIndex".data, .num batchIndex)]
  if !isStr2 (jsGet request "jsonrpc".data) then
    some ⟨jsOr id .null, none, some ⟨.num (-32600),
      .str "Invalid Request: jsonrpc must be 2.0".data, some bIdx, none⟩⟩
  else
    match jsGet request "method".data with
    | .str m =>
        (match lookupMethod methods m with
         | none => some ⟨jsOr id .null, none, some ⟨.num (-32601),
             .str ("Method \"".data ++ m ++ "\" not found".data), some bIdx, none⟩⟩
         | some mc =>
            let isNotification : Bool := isNotifId id
            let ctx0 := JsValue.obj [("res".data, .null), ("method".data, .str m),
              ("params".data, params), ("context".data, context),
              ("batchIndex".data, .num batchIndex),
              ("isNotification".data, .bool isNotification)]
            match (executeHooks false mw.beforeCall ctx0).bind fun ctx1 =>
                (mc.callAsFunction req context (jsGet ctx1 "params".data)).bind
                  fun result =>
                    (executeHooks false mw.afterCall
                      (jsSetKey ctx1 "result".data result)).map fun _ => result with
            | .ok result =>
                if isNotification then none
                else some ⟨id, some (serializeValue opts.safeEnabled result), none⟩
            | .error e =>
                if isNotification then none
                else some ⟨jsOr id .null, none,
                  some ⟨jsOr e.code (.num (-32603)),
                    jsOr e.message (.str "Internal error".data), some bIdx, none⟩⟩)
    | _ => some ⟨jsOr id .null, none, some ⟨.num (-32600),
        .str "Invalid Request: method must be a string".data, some bIdx, none⟩⟩

/-- `BatchHandler.processBatch`: an invalid batch yields one top-level error
envelope with `id: null`; a valid batch dispatches every item (independent
tasks whose aggregate preserves item order) and drops the `null` results of
notifications. -/
def processBatch (opts : Opts) (methods : List (List Char × MethodConfig))
    (mw : Middlewares) (req context : JsValue) (batch : List JsValue) :
    List Envelope :=
  match validateBatch batch with
  | .invalid c msg => [⟨.null, none, some ⟨.num c, .str msg, none, none⟩⟩]
  | .valid =>
      (batch.enum.map fun p =>
        processBatchItem opts methods mw req context p.2 p.1).filterMap id

/-! ## Dispatcher lemmas -/

theorem except_bind_ok {α β γ : Type} {x : Except α β} {f : β → Except α γ}
    {c : γ} (h : x.bind f = .ok c) : ∃ b, x = .ok b ∧ f b = .ok c := by
  cases x with
  | error e => simp [Except.bind] at h
  | ok b => exact ⟨b, rfl, by simpa [Except.bind] using h⟩

theorem except_map_ok {α β γ : Type} {x : Except α β} {g : β → γ} {c : γ}
    (h : x.map g = .ok c) : ∃ b, x = .ok b ∧ g b = c := by
  cases x with
  | error e => simp [Except.map] at h
  | ok b => exact ⟨b, rfl, by simpa [Except.map] using h⟩

/-- `reply` always sets exactly one of the `result`/`error` fields. -/
theorem reply_xor (id result : JsValue) (error : Option ErrObj) :
    (reply id result error).result.isSome = !(reply id result error).error.isSome := by
  cases error <;> rfl

theorem reply_id (id result : JsValue) (error : Option ErrObj) :
    (reply id result error).id = undefToNull id := by
  cases error <;> rfl

/-- Whatever the try block returns without throwing is a `reply` under the
request's id: its id is the `undefined`-defaulted id and exactly one of its
fields is set. -/
theorem trySingleBody_ok {opts : Opts} {mw : Middlewares} {req context : JsValue}
    {startTime : Int} {safeHeader : Option (List Char)} {params id : JsValue}
    {m : List Char} {handler : Handler} {schema : Option Schema} {env : Envelope}
    (h : trySingleBody opts mw req context startTime safeHeader params id m
      handler schema = .ok env) :
    env.id = undefToNull id ∧ env.result.isSome = !env.error.isSome := by
  unfold trySingleBody at h
  split at h
  · cases h
    exact ⟨reply_id _ _ _, reply_xor _ _ _⟩
  · obtain ⟨ctx1, h1, h⟩ := except_bind_ok h
    obtain ⟨ctxv, h2, h⟩ := except_bind_ok h
    obtain ⟨result, h3, h⟩ := except_bind_ok h
    obtain ⟨cf, h4, h5⟩ := except_map_ok h
    subst h5
    exact ⟨reply_id _ _ _, reply_xor _ _ _⟩

/-- Every envelope the single-request dispatcher emits carries the
`undefined`-defaulted request id and exactly one of `result`/`error`. -/
theorem processSingleRequest_shape (opts : Opts)
    (methods : List (List Char × MethodConfig)) (mw : Middlewares)
    (req context : JsValue) (startTime now : Int)
    (safeHeader : Option (List Char)) (body : JsValue) :
    (processSingleRequest opts methods mw req context startTime now safeHeader
      body).id =
      undefToNull (jsGet (jsOr body (.obj [])) "id".data) ∧
    (processSingleRequest opts methods mw req context startTime now safeHeader
      body).result.isSome =
      !(processSingleRequest opts methods mw req context startTime now safeHeader
        body).error.isSome := by
  unfold processSingleRequest
  dsimp only
  split
  · exact ⟨reply_id _ _ _, reply_xor _ _ _⟩
  · split
    · split
      · exact ⟨reply_id _ _ _, reply_xor _ _ _⟩
      · unfold processFound
        split
        · next env henv => exact trySingleBody_ok henv
        · exact ⟨reply_id _ _ _, reply_xor _ _ _⟩
    · exact ⟨reply_id _ _ _, reply_xor _ _ _⟩

/-- Every envelope a batch item contributes sets exactly one of
`result`/`error`. -/
theorem processBatchItem_xor {opts : Opts}
    {methods : List (List Char × MethodConfig)} {mw : Middlewares}
    {req context request : JsValue} {batchIndex : Nat} {env : Envelope}
    (h : processBatchItem opts methods mw req context request batchIndex =
      some env) : env.result.isSome = !env.error.isSome := by
  unfold processBatchItem at h
  dsimp only at h
  repeat' split at h
  all_goals first
    | (cases h; rfl)
    | (exact absurd h (by simp))

theorem jsGetEntries_append (l₁ l₂ : List (List Char × JsValue)) (q : List Char) :
    jsGetEntries (l₁ ++ l₂) q =
      match jsGetEntries l₁ q with
      | some v => some v
      | none => jsGetEntries l₂ q := by
  induction l₁ with
  | nil => simp [jsGetEntries]
  | cons kv t ih =>
      rcases kv with ⟨k₁, v₁⟩
      by_cases h : k₁ = q
      · simp [jsGetEntries, h]
      · simp [jsGetEntries, h, ih]

theorem jsGetEntries_sprmap_none {a : List (List Char × JsValue)}
    {b : List (List Char × JsValue)} {k : List Char}
    (h : jsGetEntries a k = none) :
    jsGetEntries (a.map fun kv => match jsGetEntries b kv.1 with
      | some w => (kv.1, w) | none => kv) k = none := by
  induction a with
  | nil => simp [jsGetEntries]
  | cons kv t ih =>
      rcases kv with ⟨k₁, v₁⟩
      simp only [jsGetEntries] at h
      by_cases hk : k₁ = k
      · rw [if_pos hk] at h; cases h
      · rw [if_neg hk] at h
        cases hb : jsGetEntries b k₁ <;>
          simp [jsGetEntries, hk, ih h, hb]

theorem jsGetEntries_sprmap_some {a : List (List Char × JsValue)}
    {k : List Char} {x w₀ : JsValue}
    (h : jsGetEntries a k = some w₀) :
    jsGetEntries (a.map fun kv => match jsGetEntries [(k, x)] kv.1 with
      | some w => (kv.1, w) | none => kv) k = some x := by
  induction a with
  | nil => cases h
  | cons kv t ih =>
      rcases kv with ⟨k₁, v₁⟩
      simp only [jsGetEntries] at h
      by_cases hk : k₁ = k
      · subst hk
        simp [jsGetEntries]
      · rw [if_neg hk] at h
        have hkk : ¬(k = k₁) := fun he => hk he.symm
        have ih' := ih h
        simp only [jsGetEntries] at ih'
        simp [jsGetEntries, hk, hkk, ih']

theorem jsGetEntries_spread2_single (a : List (List Char × JsValue))
    (k : List Char) (x : JsValue) :
    jsGetEntries (spread2 a [(k, x)]) k = some x := by
  cases ha : jsGetEntries a k with
  | none =>
      simp only [spread2, jsGetEntries_append, jsGetEntries_sprmap_none ha]
      simp [List.filter_cons, ha, jsGetEntries]
  | some w₀ =>
      simp only [spread2, jsGetEntries_append, jsGetEntries_sprmap_some ha]

theorem jsTruthy_spread (a b : JsValue) : jsTruthy (jsSpread a b) = true := rfl

theorem jsGet_spread_stop (acc : JsValue) :
    jsGet (jsSpread acc (.obj [(stopKey, .bool true)])) stopKey = .bool true := by
  show (jsGetEntries (spread2 (jsEntries acc) [(stopKey, .bool true)])
    stopKey).getD .undefined = .bool true
  rw [jsGetEntries_spread2_single]
  rfl

theorem execFold_append (ie : Bool) (l₁ l₂ : List Hook) (ctx : JsValue) :
    execFold ie (l₁ ++ l₂) ctx = (execFold ie l₁ ctx).bind (execFold ie l₂) := by
  induction l₁ generalizing ctx with
  | nil => simp [execFold, Except.bind]
  | cons hk t ih =>
      simp only [List.cons_append, execFold]
      cases he : execStep ie hk ctx <;> simp [Except.bind, he, ih]

/-- Once the stop marker is in the accumulated context, every remaining hook
iteration returns it untouched without running its hook. -/
theorem execFold_stopped (ie : Bool) (hooks : List Hook) (acc : JsValue)
    (h : (jsTruthy acc && jsTruthy (jsGet acc stopKey)) = true) :
    execFold ie hooks acc = .ok acc := by
  induction hooks with
  | nil => rfl
  | cons hk t ih => simp [execFold, execStep, h, Except.bind, ih]

theorem mem_enumFrom_snd {α : Type} :
    ∀ (l : List α) (n : Nat) (p : Nat × α), p ∈ l.enumFrom n → p.2 ∈ l := by
  intro l
  induction l with
  | nil => intro n p hp; simp [List.enumFrom] at hp
  | cons a t ih =>
      intro n p hp
      simp only [List.enumFrom, List.mem_cons] at hp
      rcases hp with hp | hp
      · subst hp; simp
      · exact List.mem_cons_of_mem _ (ih (n + 1) p hp)

theorem mem_enum_snd {α : Type} (l : List α) (p : Nat × α) (h : p ∈ l.enum) :
    p.2 ∈ l := mem_enumFrom_snd l 0 p h

theorem undefToNull_of_notif {v : JsValue} (h : isNotifId v = true) :
    undefToNull v = .null := by
  cases v <;> simp_all [isNotifId, undefToNull]

theorem jsOr_null_of_notif {v : JsValue} (h : isNotifId v = true) :
    jsOr v .null = .null := by
  cases v <;> simp_all [isNotifId, jsOr, jsTruthy]

theorem isDeclaredId_of_notif {v : JsValue} (h : isNotifId v = true) :
    isDeclaredId v = false := by
  cases v <;> simp_all [isNotifId, isDeclaredId]

theorem isNotifId_of_declared {v : JsValue} (h : isDeclaredId v = true) :
    isNotifId v = false := by
  cases v <;> simp_all [isNotifId, isDeclaredId]

/-- A batch item that passes envelope validation and method lookup and
carries an absent or null id contributes nothing to the batch output,
whatever its hooks and handler do. -/
theorem processBatchItem_notif {opts : Opts}
    {methods : List (List Char × MethodConfig)} {mw : Middlewares}
    {req context request : JsValue} {batchIndex : Nat} {m : List Char}
    {mc : MethodConfig}
    (hj : isStr2 (jsGet request "jsonrpc".data) = true)
    (hm : jsGet request "method".data = .str m)
    (hl : lookupMethod methods m = some mc)
    (hn : isNotifId (jsGet request "id".data) = true) :
    processBatchItem opts methods mw req context request batchIndex = none := by
  unfold processBatchItem
  dsimp only
  simp only [hj, hm, hl, hn, Bool.not_true, Bool.false_eq_true, if_false,
    if_true]
  split <;> rfl

/-- C5: every response envelope the dispatcher emits — on the single-request
path, in the batch aggregate, and from `reply` itself — contains exactly one
of the `result` and `error` fields: never both and never neither, including
when the handler result is `undefined` (the field is then present holding
`undefined`) and when no truthy error value is supplied to `reply`. -/
theorem c5_envelope_exclusivity :
    (∀ (opts : Opts) (methods : List (List Char × MethodConfig))
        (mw : Middlewares) (req context : JsValue) (startTime now : Int)
        (safeHeader : Option (List Char)) (body : JsValue),
      (processSingleRequest opts methods mw req context startTime now
          safeHeader body).result.isSome =
        !(processSingleRequest opts methods mw req context startTime now
          safeHeader body).error.isSome) ∧
    (∀ (opts : Opts) (methods : List (List Char × MethodConfig))
        (mw : Middlewares) (req context : JsValue) (batch : List JsValue),
      ∀ env ∈ processBatch opts methods mw req context batch,
        env.result.isSome = !env.error.isSome) ∧
    (∀ (id result : JsValue) (error : Option ErrObj),
      (reply id result error).result.isSome =
        !(reply id result error).error.isSome) := by
  refine ⟨?_, ?_, reply_xor⟩
  · intro opts methods mw req context st now hdr body
    exact (processSingleRequest_shape opts methods mw req context st now hdr
      body).2
  · intro opts methods mw req context batch env hmem
    unfold processBatch at hmem
    split at hmem
    · simp only [List.mem_singleton] at hmem
      subst hmem
      rfl
    · obtain ⟨a, ha, hid⟩ := List.mem_filterMap.mp hmem
      obtain ⟨p, hp, hg⟩ := List.mem_map.mp ha
      have : processBatchItem opts methods mw req context p.2 p.1 = some env := by
        rw [hg]; exact hid
      exact processBatchItem_xor this

/-- C5 witness: exclusivity evaluated on the envelope the batch path emits
for an empty batch. -/
theorem c5_envelope_exclusivity_witness :
    (Envelope.mk .null none (some ⟨.num (-32600),
      .str "Invalid Request: Batch cannot be empty".data, none, none⟩)).result.isSome =
    !(Envelope.mk .null none (some ⟨.num (-32600),
      .str "Invalid Request: Batch cannot be empty".data, none, none⟩)).error.isSome :=
  c5_envelope_exclusivity.2.1 ⟨false, true⟩ [] ⟨[], [], [], [], []⟩ .null .null
    [] _ (List.mem_singleton_self _)

/-- C2 (counterexample): a batch item with no `id` (a notification) whose
method is unknown still contributes an error envelope to the batch output,
so a notification is not always filtered from the aggregate. -/
theorem c2_notification_counterexample :
    processBatch ⟨false, true⟩ [] ⟨[], [], [], [], []⟩ .null .null
        [JsValue.obj [("jsonrpc".data, .str "2.0".data),
          ("method".data, .str "ghost".data)]] =
      [⟨.null, none, some ⟨.num (-32601), .str "Method \"ghost\" not found".data,
        some (.obj [("batchIndex".data, .num 0)]), none⟩⟩] ∧
    processBatch ⟨false, true⟩ [] ⟨[], [], [], [], []⟩ .null .null
        [JsValue.obj [("jsonrpc".data, .str "2.0".data),
          ("method".data, .str "ghost".data)]] ≠ [] := by
  refine ⟨rfl, ?_⟩
  intro hc
  exact List.noConfusion hc

/-- C2 (amended): a batch item whose id is absent or null contributes no
element to the response array provided it passes envelope validation and
method lookup — whatever its hooks and handler do — and a non-empty batch
of only such notifications yields an empty aggregate.  However, a
notification failing envelope validation or method lookup yields an error
envelope with id null (see the counterexample), and the single-request path
emits a response envelope (with id null) even when the id is absent or
null. -/
theorem c2_notification_suppression :
    (∀ (opts : Opts) (methods : List (List Char × MethodConfig))
        (mw : Middlewares) (req context request : JsValue) (k : Nat)
        (m : List Char) (mc : MethodConfig),
      isStr2 (jsGet request "jsonrpc".data) = true →
      jsGet request "method".data = .str m →
      lookupMethod methods m = some mc →
      isNotifId (jsGet request "id".data) = true →
      processBatchItem opts methods mw req context request k = none) ∧
    (∀ (opts : Opts) (methods : List (List Char × MethodConfig))
        (mw : Middlewares) (req context : JsValue) (batch : List JsValue),
      batch ≠ [] →
      (∀ r ∈ batch, isStr2 (jsGet r "jsonrpc".data) = true ∧
        (∃ m mc, jsGet r "method".data = .str m ∧
          lookupMethod methods m = some mc) ∧
        isNotifId (jsGet r "id".data) = true) →
      processBatch opts methods mw req context batch = []) ∧
    (∀ (opts : Opts) (methods : List (List Char × MethodConfig))
        (mw : Middlewares) (req context : JsValue) (st now : Int)
        (hdr : Option (List Char)) (body : JsValue),
      isNotifId (jsGet (jsOr body (.obj [])) "id".data) = true →
      (processSingleRequest opts methods mw req context st now hdr body).id =
        .null) := by
  refine ⟨?_, ?_, ?_⟩
  · intro opts methods mw req context request k m mc hj hm hl hn
    exact processBatchItem_notif hj hm hl hn
  · intro opts methods mw req context batch hne hall
    unfold processBatch
    have hval : validateBatch batch = .valid := by
      unfold validateBatch
      rw [if_neg (by simpa [List.isEmpty_iff] using hne)]
      have hfil : ((batch.map fun r => jsGet r "id".data).filter isDeclaredId)
          = [] := by
        rw [List.filter_eq_nil_iff]
        intro a ha
        obtain ⟨r, hr, rfl⟩ := List.mem_map.mp ha
        simp [isDeclaredId_of_notif (hall r hr).2.2]
      simp [hfil]
      rfl
    rw [hval]
    rw [List.filterMap_eq_nil_iff]
    intro a ha
    obtain ⟨p, hp, rfl⟩ := List.mem_map.mp ha
    obtain ⟨hj, ⟨m, mc, hm, hl⟩, hn⟩ := hall p.2 (mem_enum_snd batch p hp)
    show processBatchItem opts methods mw req context p.2 p.1 = none
    exact processBatchItem_notif hj hm hl hn
  · intro opts methods mw req context st now hdr body hn
    rw [(processSingleRequest_shape opts methods mw req context st now hdr
      body).1, undefToNull_of_notif hn]

/-- C2 witness: the amended statement evaluated concretely — a lone valid
notification batch item yields nothing; an all-notification batch yields the
empty aggregate; a single-path notification still gets an envelope, with id
null. -/
theorem c2_notification_suppression_witness :
    processBatchItem ⟨false, true⟩ [("m".data, .fn fun _ _ _ => .ok (.num 7))]
        ⟨[], [], [], [], []⟩ .null .null
        (.obj [("jsonrpc".data, .str "2.0".data), ("method".data, .str "m".data)])
        0 = none ∧
    processBatch ⟨false, true⟩ [("m".data, .fn fun _ _ _ => .ok (.num 7))]
        ⟨[], [], [], [], []⟩ .null .null
        [JsValue.obj [("jsonrpc".data, .str "2.0".data),
          ("method".data, .str "m".data)]] = [] ∧
    (processSingleRequest ⟨false, true⟩
        [("m".data, .fn fun _ _ _ => .ok (.num 7))] ⟨[], [], [], [], []⟩ .null
        .null 0 0 none
        (.obj [("jsonrpc".data, .str "2.0".data),
          ("method".data, .str "m".data)])).id = .null :=
  ⟨c2_notification_suppression.1 ⟨false, true⟩ _ _ .null .null _ 0 "m".data
      (.fn fun _ _ _ => .ok (.num 7)) rfl rfl rfl rfl,
   c2_notification_suppression.2.1 ⟨false, true⟩ _ _ .null .null _
      (by simp)
      (by
        intro r hr
        simp only [List.mem_singleton] at hr
        subst hr
        exact ⟨rfl, ⟨"m".data, .fn fun _ _ _ => .ok (.num 7), rfl, rfl⟩, rfl⟩),
   c2_notification_suppression.2.2 ⟨false, true⟩ _ _ .null .null 0 0 none _ rfl⟩

/-- C3 (counterexample): a `beforeCall` hook returning `false` stops the
hook chain, but `execute` strips the stop marker before returning and the
dispatcher never checks it, so the method handler still runs: with a single
constantly-`false` hook registered, the response carries the handler's
result — `7` here, and `8` when the registered handler is changed — rather
than reflecting only the inert accumulated context. -/
theorem c3_hook_counterexample :
    processSingleRequest ⟨false, true⟩
        [("m".data, .fn fun _ _ _ => .ok (.num 7))]
        ⟨[fun _ => .ok (.bool false)], [], [], [], []⟩ .null .null 0 0 none
        (.obj [("jsonrpc".data, .str "2.0".data), ("method".data, .str "m".data),
          ("id".data, .num 1)]) =
      ⟨.num 1, some (.num 7), none⟩ ∧
    processSingleRequest ⟨false, true⟩
        [("m".data, .fn fun _ _ _ => .ok (.num 8))]
        ⟨[fun _ => .ok (.bool false)], [], [], [], []⟩ .null .null 0 0 none
        (.obj [("jsonrpc".data, .str "2.0".data), ("method".data, .str "m".data),
          ("id".data, .num 1)]) =
      ⟨.num 1, some (.num 8), none⟩ := ⟨rfl, rfl⟩

/-- C3 (amended): if the k-th `beforeCall` hook returns `false`, no hook
after position k in that stage runs — the stage's outcome is independent of
the suffix and equals the context accumulated up to the stopping hook with
the stop marker merged and then removed — but the dispatcher does not
short-circuit: after the `beforeCall` stage returns, it invokes the method
handler with the accumulated params and the response reflects the handler's
result. -/
theorem c3_hook_short_circuit :
    (∀ (ie : Bool) (pre post : List Hook) (h : Hook) (ctx acc : JsValue),
      execFold ie pre ctx = .ok acc →
      (jsTruthy acc && jsTruthy (jsGet acc stopKey)) = false →
      h acc = .ok (.bool false) →
      executeHooks ie (pre ++ h :: post) ctx =
        .ok (jsDelete (jsSpread acc (.obj [(stopKey, .bool true)])) stopKey)) ∧
    (∀ (opts : Opts) (mw : Middlewares) (req context : JsValue) (st now : Int)
        (safeHeader : Option (List Char)) (params id : JsValue) (m : List Char)
        (hh : Handler) (c r cf : JsValue),
      opts.safeEnabled = false →
      executeHooks false mw.beforeCall (JsValue.obj
        [("method".data, .str m),
         ("params".data, if jsTruthy params then
             deserializeValue (clientSafeOf safeHeader) params else params),
         ("context".data, context), ("id".data, id),
         ("startTime".data, .num st)]) = .ok c →
      hh req context (jsGet c "params".data) = .ok r →
      executeHooks false mw.afterCall (jsSetKey c "result".data r) = .ok cf →
      processFound opts mw req context st now safeHeader params id m hh none =
        reply id (serializeValue opts.safeEnabled r) none) := by
  constructor
  · intro ie pre post h ctx acc hpre hnm hh
    unfold executeHooks
    rw [execFold_append, hpre]
    simp only [Except.bind]
    rw [execFold]
    unfold execStep
    rw [if_neg (by simp [hnm]), hh]
    simp only [isFalseLit, if_true, Except.bind]
    rw [execFold_stopped ie post _
      (by rw [jsTruthy_spread, jsGet_spread_stop]; rfl)]
    simp only [Except.map]
    rw [if_pos (by rw [jsTruthy_spread, jsGet_spread_stop]; rfl)]
  · intro opts mw req context st now hdr params id m hh c r cf hsafe h1 h2 h3
    unfold processFound trySingleBody
    rw [if_neg (by simp [hsafe]), h1]
    simp only [Except.bind]
    rw [h2]
    simp only [Except.bind]
    rw [h3]
    simp [Except.map]

/-- C3 witness: both amended parts at concrete inputs — a stopping hook with
a nonempty suffix, and a dispatcher run whose `beforeCall` chain stopped
while the handler still produced the response. -/
theorem c3_hook_short_circuit_witness :
    executeHooks false
        ([] ++ (fun _ => .ok (.bool false)) ::
          [fun _ => .ok (.obj [("x".data, .num 5)])]) (.obj []) =
      .ok (jsDelete (jsSpread (.obj []) (.obj [(stopKey, .bool true)]))
        stopKey) ∧
    processFound ⟨false, true⟩ ⟨[fun _ => .ok (.bool false)], [], [], [], []⟩
        .null .null 0 0 none .undefined (.num 1) "m".data
        (fun _ _ _ => .ok (.num 7)) none =
      reply (.num 1) (serializeValue false (.num 7)) none :=
  ⟨c3_hook_short_circuit.1 false [] [fun _ => .ok (.obj [("x".data, .num 5)])]
      (fun _ => .ok (.bool false)) (.obj []) (.obj []) rfl rfl rfl,
   c3_hook_short_circuit.2 ⟨false, true⟩
      ⟨[fun _ => .ok (.bool false)], [], [], [], []⟩ .null .null 0 0 none
      .undefined (.num 1) "m".data (fun _ _ _ => .ok (.num 7))
      (JsValue.obj [("method".data, .str "m".data), ("params".data, .undefined),
        ("context".data, .null), ("id".data, .num 1),
        ("startTime".data, .num 0)]) (.num 7)
      (jsSetKey (JsValue.obj [("method".data, .str "m".data),
        ("params".data, .undefined), ("context".data, .null),
        ("id".data, .num 1), ("startTime".data, .num 0)]) "result".data
        (.num 7)) rfl rfl rfl rfl⟩

/-- A primitive JS value (SameValueZero is reflexive on these; composite ids
are distinct references in every batch parse). -/
def jsPrimitive : JsValue → Bool
  | .str _ => true
  | .num _ => true
  | .bool _ => true
  | .null => true
  | .undefined => true
  | .bigint _ => true
  | _ => false

theorem svz_refl {v : JsValue} (h : jsPrimitive v = true) :
    jsSameValueZero v v = true := by
  cases v <;> simp_all [jsPrimitive, jsSameValueZero]

theorem foldl_setAdd_length_le (l : List JsValue) :
    ∀ acc, (l.foldl setAdd acc).length ≤ acc.length + l.length := by
  induction l with
  | nil => intro acc; simp
  | cons v t ih =>
      intro acc
      have h1 : (setAdd acc v).length ≤ acc.length + 1 := by
        unfold setAdd; split <;> simp
      have h2 := ih (setAdd acc v)
      simp only [List.foldl_cons, List.length_cons]
      omega

theorem foldl_setAdd_any (l : List JsValue) (v : JsValue) :
    ∀ acc, acc.any (jsSameValueZero · v) = true →
      (l.foldl setAdd acc).any (jsSameValueZero · v) = true := by
  induction l with
  | nil => intro acc h; exact h
  | cons w t ih =>
      intro acc h
      simp only [List.foldl_cons]
      apply ih
      unfold setAdd
      split
      · exact h
      · simp [List.any_append, h]

theorem setAdd_self_any (acc : List JsValue) (v : JsValue)
    (h : jsSameValueZero v v = true) :
    (setAdd acc v).any (jsSameValueZero · v) = true := by
  unfold setAdd
  split
  · next h' => exact h'
  · simp [List.any_append, h]

theorem setAdd_skip {acc : List JsValue} {v : JsValue}
    (h : acc.any (jsSameValueZero · v) = true) : setAdd acc v = acc := by
  unfold setAdd; rw [if_pos h]

/-- A list containing a repeated (SameValueZero-reflexive) element has a
strictly smaller `Set`. -/
theorem jsSetOf_dup_lt (A B C : List JsValue) (v : JsValue)
    (hv : jsSameValueZero v v = true) :
    (jsSetOf (A ++ v :: (B ++ v :: C))).length <
      (A ++ v :: (B ++ v :: C)).length := by
  unfold jsSetOf
  rw [List.foldl_append, List.foldl_cons, List.foldl_append, List.foldl_cons]
  have h2 : (List.foldl setAdd (setAdd (List.foldl setAdd [] A) v) B).any
      (jsSameValueZero · v) = true :=
    foldl_setAdd_any B v _ (setAdd_self_any _ v hv)
  rw [setAdd_skip h2]
  have h3 := foldl_setAdd_length_le C
    (List.foldl setAdd (setAdd (List.foldl setAdd [] A) v) B)
  have h4 := foldl_setAdd_length_le B (setAdd (List.foldl setAdd [] A) v)
  have h5 : (setAdd (List.foldl setAdd [] A) v).length ≤
      (List.foldl setAdd [] A).length + 1 := by
    unfold setAdd; split <;> simp
  have h6 := foldl_setAdd_length_le A []
  simp only [List.length_nil, Nat.zero_add] at h6
  simp only [List.length_append, List.length_cons]
  omega

/-- C6: a batch containing two items that declare the same non-null,
non-undefined (primitive) id is rejected wholesale: for every method table
and middleware configuration — so no item's handler can run — the result is
the single `-32600` duplicate-ids error envelope with id null. -/
theorem c6_batch_duplicate_ids :
    ∀ (opts : Opts) (methods : List (List Char × MethodConfig))
      (mw : Middlewares) (req context : JsValue) (a b c : List JsValue)
      (x y v : JsValue),
      jsGet x "id".data = v → jsGet y "id".data = v →
      isDeclaredId v = true → jsPrimitive v = true →
      processBatch opts methods mw req context (a ++ x :: (b ++ y :: c)) =
        [⟨.null, none, some ⟨.num (-32600),
          .str "Invalid Request: Duplicate IDs in batch".data, none, none⟩⟩] := by
  intro opts methods mw req context a b c x y v hx hy hdecl hprim
  unfold processBatch
  have hval : validateBatch (a ++ x :: (b ++ y :: c)) =
      .invalid (-32600) "Invalid Request: Duplicate IDs in batch".data := by
    unfold validateBatch
    rw [if_neg (by simp [List.isEmpty_iff])]
    have hids : (((a ++ x :: (b ++ y :: c)).map fun r =>
        jsGet r "id".data).filter isDeclaredId) =
        ((a.map fun r => jsGet r "id".data).filter isDeclaredId) ++ v ::
        (((b.map fun r => jsGet r "id".data).filter isDeclaredId) ++ v ::
        ((c.map fun r => jsGet r "id".data).filter isDeclaredId)) := by
      simp [List.map_append, List.filter_append, hx, hy, List.filter_cons,
        hdecl]
    rw [hids]
    rw [if_pos (by
      have := jsSetOf_dup_lt
        ((a.map fun r => jsGet r "id".data).filter isDeclaredId)
        ((b.map fun r => jsGet r "id".data).filter isDeclaredId)
        ((c.map fun r => jsGet r "id".data).filter isDeclaredId)
        v (svz_refl hprim)
      omega)]
  rw [hval]

/-- C6 witness: the duplicate-id rejection evaluated on the concrete batch of
Scenario C (two `echo` calls both declaring id 1). -/
theorem c6_batch_duplicate_ids_witness :
    processBatch ⟨false, true⟩ [] ⟨[], [], [], [], []⟩ .null .null
        [JsValue.obj [("jsonrpc".data, .str "2.0".data),
           ("method".data, .str "echo".data), ("id".data, .num 1)],
         JsValue.obj [("jsonrpc".data, .str "2.0".data),
           ("method".data, .str "echo".data), ("id".data, .num 1)]] =
      [⟨.null, none, some ⟨.num (-32600),
        .str "Invalid Request: Duplicate IDs in batch".data, none, none⟩⟩] :=
  c6_batch_duplicate_ids ⟨false, true⟩ [] ⟨[], [], [], [], []⟩ .null .null
    [] [] []
    (JsValue.obj [("jsonrpc".data, .str "2.0".data),
      ("method".data, .str "echo".data), ("id".data, .num 1)])
    (JsValue.obj [("jsonrpc".data, .str "2.0".data),
      ("method".data, .str "echo".data), ("id".data, .num 1)])
    (.num 1) rfl rfl rfl rfl

/-- A batch item that reaches its handler and sees it throw: the outcome is
`null` for a notification and otherwise one error envelope whose `data` is
always `{batchIndex}`. -/
theorem processBatchItem_handler_error {opts : Opts}
    {methods : List (List Char × MethodConfig)} {mw : Middlewares}
    {req context request : JsValue} {k : Nat} {m : List Char} {hh : Handler}
    {c1 : JsValue} {e : JsError}
    (hj : isStr2 (jsGet request "jsonrpc".data) = true)
    (hm : jsGet request "method".data = .str m)
    (hl : lookupMethod methods m = some (.fn hh))
    (hbc : executeHooks false mw.beforeCall (JsValue.obj
      [("res".data, .null), ("method".data, .str m),
       ("params".data, jsGet request "params".data), ("context".data, context),
       ("batchIndex".data, .num k),
       ("isNotification".data, .bool (isNotifId (jsGet request "id".data)))]) =
      .ok c1)
    (hcall : hh req context (jsGet c1 "params".data) = .error e) :
    processBatchItem opts methods mw req context request k =
      if isNotifId (jsGet request "id".data) then none
      else some ⟨jsOr (jsGet request "id".data) .null, none,
        some ⟨jsOr e.code (.num (-32603)),
          jsOr e.message (.str "Internal error".data),
          some (.obj [("batchIndex".data, .num k)]), none⟩⟩ := by
  unfold processBatchItem
  dsimp only
  simp only [hj, hm, hl, Bool.not_true, Bool.false_eq_true, if_false]
  rw [hbc]
  simp only [Except.bind, MethodConfig.callAsFunction]
  rw [hcall]

/-- A batch item that reaches its handler and sees it succeed (with the
`afterCall` chain not throwing): `null` for a notification, otherwise one
result envelope echoing the item's id verbatim. -/
theorem processBatchItem_handler_ok {opts : Opts}
    {methods : List (List Char × MethodConfig)} {mw : Middlewares}
    {req context request : JsValue} {k : Nat} {m : List Char} {hh : Handler}
    {c1 r c2 : JsValue}
    (hj : isStr2 (jsGet request "jsonrpc".data) = true)
    (hm : jsGet request "method".data = .str m)
    (hl : lookupMethod methods m = some (.fn hh))
    (hbc : executeHooks false mw.beforeCall (JsValue.obj
      [("res".data, .null), ("method".data, .str m),
       ("params".data, jsGet request "params".data), ("context".data, context),
       ("batchIndex".data, .num k),
       ("isNotification".data, .bool (isNotifId (jsGet request "id".data)))]) =
      .ok c1)
    (hcall : hh req context (jsGet c1 "params".data) = .ok r)
    (hac : executeHooks false mw.afterCall (jsSetKey c1 "result".data r) =
      .ok c2) :
    processBatchItem opts methods mw req context request k =
      if isNotifId (jsGet request "id".data) then none
      else some ⟨jsGet request "id".data,
        some (serializeValue opts.safeEnabled r), none⟩ := by
  unfold processBatchItem
  dsimp only
  simp only [hj, hm, hl, Bool.not_true, Bool.false_eq_true, if_false]
  rw [hbc]
  simp only [Except.bind, MethodConfig.callAsFunction]
  rw [hcall]
  simp only [Except.bind]
  rw [hac]
  simp [Except.map]

/-- C7 (counterexample): a batch item whose handler throws an error carrying
its own `data` (`"X"`) does not get that data preserved — the emitted error
envelope's `data` is `{batchIndex: 0}`. -/
theorem c7_error_passthrough_counterexample :
    processBatchItem ⟨false, true⟩
        [("m".data, .fn fun _ _ _ =>
          .error ⟨.num (-5), .str "boom".data, .str "X".data⟩)]
        ⟨[], [], [], [], []⟩ .null .null
        (.obj [("jsonrpc".data, .str "2.0".data), ("method".data, .str "m".data),
          ("id".data, .num 1)]) 0 =
      some ⟨.num 1, none, some ⟨.num (-5), .str "boom".data,
        some (.obj [("batchIndex".data, .num 0)]), none⟩⟩ ∧
    some (JsValue.obj [("batchIndex".data, .num 0)]) ≠
      some (JsValue.str "X".data) := by
  refine ⟨rfl, ?_⟩
  intro h
  injection h with h'
  exact JsValue.noConfusion h'

/-- The single-request catch path for a handler throw: the emitted envelope
normalizes the error, preserving a truthy `code` (else `-32603`), a truthy
`message` (else `Internal error`) and a truthy `data`. -/
theorem processFound_handler_error {opts : Opts} {mw : Middlewares}
    {req context : JsValue} {st now : Int} {hdr : Option (List Char)}
    {params id : JsValue} {m : List Char} {hh : Handler} {c : JsValue}
    {e : JsError}
    (hgate : (opts.strictMode && opts.safeEnabled && !headerTruthy hdr) = false)
    (hbc : executeHooks false mw.beforeCall (JsValue.obj
      [("method".data, .str m),
       ("params".data, if jsTruthy params then
           deserializeValue (clientSafeOf hdr) params else params),
       ("context".data, context), ("id".data, id),
       ("startTime".data, .num st)]) = .ok c)
    (hcall : hh req context (jsGet c "params".data) = .error e) :
    processFound opts mw req context st now hdr params id m hh none =
      reply id .undefined (some ⟨jsOr e.code (.num (-32603)),
        jsOr e.message (.str "Internal error".data),
        (if jsTruthy e.data then some e.data else none),
        some (serializeErrorModel e)⟩) := by
  unfold processFound trySingleBody
  rw [if_neg (by simp [hgate]), hbc]
  simp only [Except.bind]
  rw [hcall]

/-- C7 (amended): in the single-request path a thrown error's truthy `code`
and truthy `data` are preserved verbatim, and a falsy or absent `code`
defaults to `-32603`; in the batch path the (truthy) `code` is preserved but
the envelope's `data` is always replaced by `{batchIndex}`, whatever `data`
the thrown error carried. -/
theorem c7_error_passthrough :
    (∀ (opts : Opts) (mw : Middlewares) (req context : JsValue) (st now : Int)
        (hdr : Option (List Char)) (params id : JsValue) (m : List Char)
        (hh : Handler) (c : JsValue) (e : JsError),
      (opts.strictMode && opts.safeEnabled && !headerTruthy hdr) = false →
      executeHooks false mw.beforeCall (JsValue.obj
        [("method".data, .str m),
         ("params".data, if jsTruthy params then
             deserializeValue (clientSafeOf hdr) params else params),
         ("context".data, context), ("id".data, id),
         ("startTime".data, .num st)]) = .ok c →
      hh req context (jsGet c "params".data) = .error e →
      jsTruthy e.code = true → jsTruthy e.data = true →
      processFound opts mw req context st now hdr params id m hh none =
        reply id .undefined (some ⟨e.code,
          jsOr e.message (.str "Internal error".data), some e.data,
          some (serializeErrorModel e)⟩)) ∧
    (∀ (opts : Opts) (mw : Middlewares) (req context : JsValue) (st now : Int)
        (hdr : Option (List Char)) (params id : JsValue) (m : List Char)
        (hh : Handler) (c : JsValue) (e : JsError),
      (opts.strictMode && opts.safeEnabled && !headerTruthy hdr) = false →
      executeHooks false mw.beforeCall (JsValue.obj
        [("method".data, .str m),
         ("params".data, if jsTruthy params then
             deserializeValue (clientSafeOf hdr) params else params),
         ("context".data, context), ("id".data, id),
         ("startTime".data, .num st)]) = .ok c →
      hh req context (jsGet c "params".data) = .error e →
      jsTruthy e.code = false →
      processFound opts mw req context st now hdr params id m hh none =
        reply id .undefined (some ⟨.num (-32603),
          jsOr e.message (.str "Internal error".data),
          (if jsTruthy e.data then some e.data else none),
          some (serializeErrorModel e)⟩)) ∧
    (∀ (opts : Opts) (methods : List (List Char × MethodConfig))
        (mw : Middlewares) (req context request : JsValue) (k : Nat)
        (m : List Char) (hh : Handler) (c1 : JsValue) (e : JsError),
      isStr2 (jsGet request "jsonrpc".data) = true →
      jsGet request "method".data = .str m →
      lookupMethod methods m = some (.fn hh) →
      executeHooks false mw.beforeCall (JsValue.obj
        [("res".data, .null), ("method".data, .str m),
         ("params".data, jsGet request "params".data),
         ("context".data, context), ("batchIndex".data, .num k),
         ("isNotification".data,
           .bool (isNotifId (jsGet request "id".data)))]) = .ok c1 →
      hh req context (jsGet c1 "params".data) = .error e →
      isDeclaredId (jsGet request "id".data) = true →
      processBatchItem opts methods mw req context request k =
        some ⟨jsOr (jsGet request "id".data) .null, none,
          some ⟨jsOr e.code (.num (-32603)),
            jsOr e.message (.str "Internal error".data),
            some (.obj [("batchIndex".data, .num k)]), none⟩⟩) := by
  refine ⟨?_, ?_, ?_⟩
  · intro opts mw req context st now hdr params id m hh c e hgate hbc hcall
      hcode hdata
    rw [processFound_handler_error hgate hbc hcall]
    rw [show jsOr e.code (.num (-32603)) = e.code from by
      unfold jsOr; rw [if_pos hcode]]
    rw [if_pos hdata]
  · intro opts mw req context st now hdr params id m hh c e hgate hbc hcall
      hcode
    rw [processFound_handler_error hgate hbc hcall]
    rw [show jsOr e.code (.num (-32603)) = .num (-32603) from by
      unfold jsOr; rw [if_neg (by simp [hcode])]]
  · intro opts methods mw req context request k m hh c1 e hj hm hl hbc hcall
      hdecl
    rw [processBatchItem_handler_error hj hm hl hbc hcall]
    rw [if_neg (by simp [isNotifId_of_declared hdecl])]

/-- C7 witness: all three amended parts at concrete inputs — a single-path
handler throw with custom code `-5` and data `"X"` preserved, an
un-annotated single-path throw defaulting to `-32603`, and a batch-path
throw whose envelope data is `{batchIndex: 2}`. -/
theorem c7_error_passthrough_witness :
    processFound ⟨false, true⟩ ⟨[], [], [], [], []⟩ .null .null 0 0 none .undefined
        (.num 1) "m".data
        (fun _ _ _ => .error ⟨.num (-5), .str "boom".data, .str "X".data⟩)
        none =
      reply (.num 1) .undefined (some ⟨.num (-5),
        jsOr (.str "boom".data) (.str "Internal error".data),
        some (.str "X".data),
        some (serializeErrorModel ⟨.num (-5), .str "boom".data,
          .str "X".data⟩)⟩) ∧
    processFound ⟨false, true⟩ ⟨[], [], [], [], []⟩ .null .null 0 0 none .undefined
        (.num 1) "m".data
        (fun _ _ _ => .error ⟨.undefined, .str "boom".data, .undefined⟩) none =
      reply (.num 1) .undefined (some ⟨.num (-32603),
        jsOr (.str "boom".data) (.str "Internal error".data),
        (if jsTruthy .undefined then some .undefined else none),
        some (serializeErrorModel ⟨.undefined, .str "boom".data, .undefined⟩)⟩) ∧
    processBatchItem ⟨false, true⟩
        [("m".data, .fn fun _ _ _ =>
          .error ⟨.num (-5), .str "boom".data, .str "X".data⟩)]
        ⟨[], [], [], [], []⟩ .null .null
        (.obj [("jsonrpc".data, .str "2.0".data),
          ("method".data, .str "m".data), ("id".data, .num 1)]) 2 =
      some ⟨jsOr (.num 1) .null, none,
        some ⟨jsOr (.num (-5)) (.num (-32603)),
          jsOr (.str "boom".data) (.str "Internal error".data),
          some (.obj [("batchIndex".data, .num 2)]), none⟩⟩ :=
  ⟨c7_error_passthrough.1 ⟨false, true⟩ ⟨[], [], [], [], []⟩ .null .null 0 0
      none .undefined (.num 1) "m".data
      (fun _ _ _ => .error ⟨.num (-5), .str "boom".data, .str "X".data⟩)
      (JsValue.obj [("method".data, .str "m".data), ("params".data, .undefined),
        ("context".data, .null), ("id".data, .num 1),
        ("startTime".data, .num 0)])
      ⟨.num (-5), .str "boom".data, .str "X".data⟩ rfl rfl rfl rfl rfl,
   c7_error_passthrough.2.1 ⟨false, true⟩ ⟨[], [], [], [], []⟩ .null .null 0 0
      none .undefined (.num 1) "m".data
      (fun _ _ _ => .error ⟨.undefined, .str "boom".data, .undefined⟩)
      (JsValue.obj [("method".data, .str "m".data), ("params".data, .undefined),
        ("context".data, .null), ("id".data, .num 1),
        ("startTime".data, .num 0)])
      ⟨.undefined, .str "boom".data, .undefined⟩ rfl rfl rfl rfl,
   c7_error_passthrough.2.2 ⟨false, true⟩
      [("m".data, .fn fun _ _ _ =>
        .error ⟨.num (-5), .str "boom".data, .str "X".data⟩)]
      ⟨[], [], [], [], []⟩ .null .null
      (.obj [("jsonrpc".data, .str "2.0".data), ("method".data, .str "m".data),
        ("id".data, .num 1)]) 2 "m".data
      (fun _ _ _ => .error ⟨.num (-5), .str "boom".data, .str "X".data⟩)
      (JsValue.obj [("res".data, .null), ("method".data, .str "m".data),
        ("params".data, .undefined), ("context".data, .null),
        ("batchIndex".data, .num 2), ("isNotification".data, .bool false)])
      ⟨.num (-5), .str "boom".data, .str "X".data⟩ rfl rfl rfl rfl rfl rfl⟩

/-- C9: in the batch path no registered `onError` hook is ever invoked — the
batch output is identical under any two `onError` registries, because the
catch block's hook dispatch evaluates the try-scoped `middlewareContext` and
the resulting ReferenceError is swallowed before `execute` is reached — yet
an item whose handler throws still yields exactly one error envelope tagged
with `data.batchIndex`, or nothing when it is a notification; and on a valid
batch the aggregate is assembled item-by-item from each item's own request
alone, so sibling items are unaffected. -/
theorem c9_batch_onerror_skipped :
    (∀ (opts : Opts) (methods : List (List Char × MethodConfig))
        (bc ac oe oe' bv av : List Hook) (req context : JsValue)
        (batch : List JsValue),
      processBatch opts methods ⟨bc, ac, oe, bv, av⟩ req context batch =
        processBatch opts methods ⟨bc, ac, oe', bv, av⟩ req context batch) ∧
    (∀ (opts : Opts) (methods : List (List Char × MethodConfig))
        (mw : Middlewares) (req context request : JsValue) (k : Nat)
        (m : List Char) (hh : Handler) (c1 : JsValue) (e : JsError),
      isStr2 (jsGet request "jsonrpc".data) = true →
      jsGet request "method".data = .str m →
      lookupMethod methods m = some (.fn hh) →
      executeHooks false mw.beforeCall (JsValue.obj
        [("res".data, .null), ("method".data, .str m),
         ("params".data, jsGet request "params".data),
         ("context".data, context), ("batchIndex".data, .num k),
         ("isNotification".data,
           .bool (isNotifId (jsGet request "id".data)))]) = .ok c1 →
      hh req context (jsGet c1 "params".data) = .error e →
      processBatchItem opts methods mw req context request k =
        (if isNotifId (jsGet request "id".data) then none
         else some ⟨jsOr (jsGet request "id".data) .null, none,
           some ⟨jsOr e.code (.num (-32603)),
             jsOr e.message (.str "Internal error".data),
             some (.obj [("batchIndex".data, .num k)]), none⟩⟩)) ∧
    (∀ (opts : Opts) (methods : List (List Char × MethodConfig))
        (mw : Middlewares) (req context : JsValue) (batch : List JsValue),
      validateBatch batch = .valid →
      processBatch opts methods mw req context batch =
        (batch.enum.map fun p =>
          processBatchItem opts methods mw req context p.2 p.1).filterMap id) := by
  refine ⟨?_, ?_, ?_⟩
  · intro opts methods bc ac oe oe' bv av req context batch
    rfl
  · intro opts methods mw req context request k m hh c1 e hj hm hl hbc hcall
    exact processBatchItem_handler_error hj hm hl hbc hcall
  · intro opts methods mw req context batch hval
    unfold processBatch
    rw [hval]

/-- C9 witness: the three parts evaluated concretely — a throwing batch item
produces the same output under an empty and a poisoned `onError` registry,
yields its tagged error envelope, and the valid singleton batch is the
item-wise aggregate. -/
theorem c9_batch_onerror_skipped_witness :
    processBatch ⟨false, true⟩
        [("m".data, .fn fun _ _ _ =>
          .error ⟨.num (-5), .str "boom".data, .undefined⟩)]
        ⟨[], [], [fun _ => .error ⟨.undefined, .str "hook crashed".data, .undefined⟩],
          [], []⟩ .null .null
        [JsValue.obj [("jsonrpc".data, .str "2.0".data),
          ("method".data, .str "m".data), ("id".data, .num 1)]] =
      processBatch ⟨false, true⟩
        [("m".data, .fn fun _ _ _ =>
          .error ⟨.num (-5), .str "boom".data, .undefined⟩)]
        ⟨[], [], [], [], []⟩ .null .null
        [JsValue.obj [("jsonrpc".data, .str "2.0".data),
          ("method".data, .str "m".data), ("id".data, .num 1)]] ∧
    processBatchItem ⟨false, true⟩
        [("m".data, .fn fun _ _ _ =>
          .error ⟨.num (-5), .str "boom".data, .undefined⟩)]
        ⟨[], [], [], [], []⟩ .null .null
        (.obj [("jsonrpc".data, .str "2.0".data), ("method".data, .str "m".data),
          ("id".data, .num 1)]) 0 =
      (if isNotifId (jsGet (.obj [("jsonrpc".data, .str "2.0".data),
          ("method".data, .str "m".data), ("id".data, .num 1)]) "id".data)
       then none
       else some ⟨jsOr (jsGet (.obj [("jsonrpc".data, .str "2.0".data),
          ("method".data, .str "m".data), ("id".data, .num 1)]) "id".data)
            .null, none,
         some ⟨jsOr (.num (-5)) (.num (-32603)),
           jsOr (.str "boom".data) (.str "Internal error".data),
           some (.obj [("batchIndex".data, .num 0)]), none⟩⟩) ∧
    processBatch ⟨false, true⟩ [] ⟨[], [], [], [], []⟩ .null .null
        [JsValue.obj [("jsonrpc".data, .str "2.0".data),
          ("method".data, .str "ghost".data), ("id".data, .num 1)]] =
      (([JsValue.obj [("jsonrpc".data, .str "2.0".data),
          ("method".data, .str "ghost".data),
          ("id".data, .num 1)]].enum.map fun p =>
        processBatchItem ⟨false, true⟩ [] ⟨[], [], [], [], []⟩ .null .null
          p.2 p.1).filterMap id) :=
  ⟨c9_batch_onerror_skipped.1 ⟨false, true⟩
      [("m".data, .fn fun _ _ _ =>
        .error ⟨.num (-5), .str "boom".data, .undefined⟩)] []
      [] [fun _ => .error ⟨.undefined, .str "hook crashed".data, .undefined⟩] []
      [] [] .null .null
      [JsValue.obj [("jsonrpc".data, .str "2.0".data),
        ("method".data, .str "m".data), ("id".data, .num 1)]],
   c9_batch_onerror_skipped.2.1 ⟨false, true⟩
      [("m".data, .fn fun _ _ _ =>
        .error ⟨.num (-5), .str "boom".data, .undefined⟩)]
      ⟨[], [], [], [], []⟩ .null .null
      (.obj [("jsonrpc".data, .str "2.0".data), ("method".data, .str "m".data),
        ("id".data, .num 1)]) 0 "m".data
      (fun _ _ _ => .error ⟨.num (-5), .str "boom".data, .undefined⟩)
      (JsValue.obj [("res".data, .null), ("method".data, .str "m".data),
        ("params".data, .undefined), ("context".data, .null),
        ("batchIndex".data, .num 0), ("isNotification".data, .bool false)])
      ⟨.num (-5), .str "boom".data, .undefined⟩ rfl rfl rfl rfl rfl,
   c9_batch_onerror_skipped.2.2 ⟨false, true⟩ [] ⟨[], [], [], [], []⟩ .null
      .null
      [JsValue.obj [("jsonrpc".data, .str "2.0".data),
        ("method".data, .str "ghost".data), ("id".data, .num 1)]] rfl⟩

/-- C10: a batch item whose id is 0 (or any falsy non-null declared id, such
as the empty string) is treated as a call, not a notification — on handler
success its envelope is emitted with the id echoed verbatim — but when the
item results in an error, the error envelope reports id null instead of the
request's id, because the catch path coerces the id with `request.id || null`. -/
theorem c10_falsy_id_batch :
    (∀ (opts : Opts) (methods : List (List Char × MethodConfig))
        (mw : Middlewares) (req context request : JsValue) (k : Nat)
        (m : List Char) (hh : Handler) (c1 r c2 : JsValue),
      isStr2 (jsGet request "jsonrpc".data) = true →
      jsGet request "method".data = .str m →
      lookupMethod methods m = some (.fn hh) →
      executeHooks false mw.beforeCall (JsValue.obj
        [("res".data, .null), ("method".data, .str m),
         ("params".data, jsGet request "params".data),
         ("context".data, context), ("batchIndex".data, .num k),
         ("isNotification".data,
           .bool (isNotifId (jsGet request "id".data)))]) = .ok c1 →
      hh req context (jsGet c1 "params".data) = .ok r →
      executeHooks false mw.afterCall (jsSetKey c1 "result".data r) = .ok c2 →
      isDeclaredId (jsGet request "id".data) = true →
      processBatchItem opts methods mw req context request k =
        some ⟨jsGet request "id".data,
          some (serializeValue opts.safeEnabled r), none⟩) ∧
    (∀ (opts : Opts) (methods : List (List Char × MethodConfig))
        (mw : Middlewares) (req context request : JsValue) (k : Nat)
        (m : List Char) (hh : Handler) (c1 : JsValue) (e : JsError),
      isStr2 (jsGet request "jsonrpc".data) = true →
      jsGet request "method".data = .str m →
      lookupMethod methods m = some (.fn hh) →
      executeHooks false mw.beforeCall (JsValue.obj
        [("res".data, .null), ("method".data, .str m),
         ("params".data, jsGet request "params".data),
         ("context".data, context), ("batchIndex".data, .num k),
         ("isNotification".data,
           .bool (isNotifId (jsGet request "id".data)))]) = .ok c1 →
      hh req context (jsGet c1 "params".data) = .error e →
      isDeclaredId (jsGet request "id".data) = true →
      jsTruthy (jsGet request "id".data) = false →
      processBatchItem opts methods mw req context request k =
        some ⟨.null, none,
          some ⟨jsOr e.code (.num (-32603)),
            jsOr e.message (.str "Internal error".data),
            some (.obj [("batchIndex".data, .num k)]), none⟩⟩) := by
  constructor
  · intro opts methods mw req context request k m hh c1 r c2 hj hm hl hbc
      hcall hac hdecl
    rw [processBatchItem_handler_ok hj hm hl hbc hcall hac]
    rw [if_neg (by simp [isNotifId_of_declared hdecl])]
  · intro opts methods mw req context request k m hh c1 e hj hm hl hbc hcall
      hdecl hfalsy
    rw [processBatchItem_handler_error hj hm hl hbc hcall]
    rw [if_neg (by simp [isNotifId_of_declared hdecl])]
    rw [show jsOr (jsGet request "id".data) .null = .null from by
      unfold jsOr; rw [if_neg (by simp [hfalsy])]]

/-- C10 witness: a batch item with id 0 — the success envelope echoes id 0;
the error envelope reports id null. -/
theorem c10_falsy_id_batch_witness :
    processBatchItem ⟨false, true⟩ [("m".data, .fn fun _ _ _ => .ok (.num 7))]
        ⟨[], [], [], [], []⟩ .null .null
        (.obj [("jsonrpc".data, .str "2.0".data), ("method".data, .str "m".data),
          ("id".data, .num 0)]) 0 =
      some ⟨.num 0, some (serializeValue false (.num 7)), none⟩ ∧
    processBatchItem ⟨false, true⟩
        [("m".data, .fn fun _ _ _ =>
          .error ⟨.num (-5), .str "boom".data, .undefined⟩)]
        ⟨[], [], [], [], []⟩ .null .null
        (.obj [("jsonrpc".data, .str "2.0".data), ("method".data, .str "m".data),
          ("id".data, .num 0)]) 0 =
      some ⟨.null, none,
        some ⟨jsOr (.num (-5)) (.num (-32603)),
          jsOr (.str "boom".data) (.str "Internal error".data),
          some (.obj [("batchIndex".data, .num 0)]), none⟩⟩ :=
  ⟨c10_falsy_id_batch.1 ⟨false, true⟩
      [("m".data, .fn fun _ _ _ => .ok (.num 7))] ⟨[], [], [], [], []⟩ .null
      .null
      (.obj [("jsonrpc".data, .str "2.0".data), ("method".data, .str "m".data),
        ("id".data, .num 0)]) 0 "m".data (fun _ _ _ => .ok (.num 7))
      (JsValue.obj [("res".data, .null), ("method".data, .str "m".data),
        ("params".data, .undefined), ("context".data, .null),
        ("batchIndex".data, .num 0), ("isNotification".data, .bool false)])
      (.num 7)
      (jsSetKey (JsValue.obj [("res".data, .null), ("method".data, .str "m".data),
        ("params".data, .undefined), ("context".data, .null),
        ("batchIndex".data, .num 0), ("isNotification".data, .bool false)])
        "result".data (.num 7)) rfl rfl rfl rfl rfl rfl rfl,
   c10_falsy_id_batch.2 ⟨false, true⟩
      [("m".data, .fn fun _ _ _ =>
        .error ⟨.num (-5), .str "boom".data, .undefined⟩)] ⟨[], [], [], [], []⟩
      .null .null
      (.obj [("jsonrpc".data, .str "2.0".data), ("method".data, .str "m".data),
        ("id".data, .num 0)]) 0 "m".data
      (fun _ _ _ => .error ⟨.num (-5), .str "boom".data, .undefined⟩)
      (JsValue.obj [("res".data, .null), ("method".data, .str "m".data),
        ("params".data, .undefined), ("context".data, .null),
        ("batchIndex".data, .num 0), ("isNotification".data, .bool false)])
      ⟨.num (-5), .str "boom".data, .undefined⟩ rfl rfl rfl rfl rfl rfl rfl⟩

/-- `a` is a leading segment of `b` (`String.prototype.startsWith`). -/
def leadsWith : List Char → List Char → Bool
  | [], _ => true
  | _ :: _, [] => false
  | p :: ps, c :: cs => p = c && leadsWith ps cs

/-- Registration into the string-keyed method table
(`this.#methods[name] = ...`). -/
def setMethodEntry : List (List Char × MethodConfig) → List Char →
    MethodConfig → List (List Char × MethodConfig)
  | [], k, v => [(k, v)]
  | (k', v') :: t, k, v =>
      if k' = k then (k, v) :: t else (k', v') :: setMethodEntry t k v

/-- The default introspection namespace. -/
def introspectionNs : List Char := "__rpc.".data

/-- Modelled from the spec: the introspection-enabled `addMethod` of the
current endpoint — the one rejecting method names under the configurable
introspection namespace (default `__rpc.`) — is missing from the provided
source snapshot; only its tests (`__tests__/introspection.test.js`, which
expect registration of `__rpc.custom` to throw a reserved-namespace error
while `_custom`, `rpc.method` and `__custom` register fine) and the spec
describe it, and the `addMethod` present in `src/index.js` predates the
feature.  Per the spec's reserved-namespace rule, registering a name inside
the namespace fails fast at registration time with an error and registers
nothing; any other name is stored in the method table. -/
def addMethodChecked (ns : List Char)
    (methods : List (List Char × MethodConfig)) (name : List Char)
    (mc : MethodConfig) :
    Except (List Char) (List (List Char × MethodConfig)) :=
  if leadsWith ns name then
    .error "Method names in the introspection namespace are reserved for RPC introspection".data
  else .ok (setMethodEntry methods name mc)

/-- C8: registering any method name that lies inside the configured
introspection namespace fails at registration time with the
reserved-namespace error, for every method table — the method is not
registered. -/
theorem c8_reserved_namespace :
    ∀ (ns : List Char) (methods : List (List Char × MethodConfig))
      (name : List Char) (mc : MethodConfig),
      leadsWith ns name = true →
      addMethodChecked ns methods name mc =
        .error "Method names in the introspection namespace are reserved for RPC introspection".data := by
  intro ns methods name mc h
  unfold addMethodChecked
  rw [if_pos h]

/-- C8 witness: registering `__rpc.custom` under the default namespace
fails. -/
theorem c8_reserved_namespace_witness :
    addMethodChecked introspectionNs [] "__rpc.custom".data
        (.fn fun _ _ _ => .ok .null) =
      .error "Method names in the introspection namespace are reserved for RPC introspection".data :=
  c8_reserved_namespace introspectionNs [] "__rpc.custom".data
    (.fn fun _ _ _ => .ok .null) rfl

example : deserializeStr false "0123456".data = .str "0123456".data := rfl
example : deserializeStr true "0123456".data = .str "0123456".data := rfl
example : legacyDeserializeStr "0123456".data = .bigint 123456 := rfl
example : deserializeStr false "42n".data = .bigint 42 := rfl
example : deserializeValue true (serializeValue true (.str "abc".data)) = .str "abc".data := rfl
